import Mathlib

/-!
Verification of the `brili.ts` interpreter (the Bril IR evaluator).

This file shallowly embeds the interpreter's data model and evaluation
functions in Lean and proves the frozen claims about them. Machine
integers (JS `BigInt` with `BigInt.asIntN(64, ·)`) are modelled as `Int`
with explicit wraparound. Fallible code (`throw error(...)`) returns
`Except Err`. JS `Map` objects are modelled as association lists; a JS
`Map` keyed by *objects* compares keys by reference identity, so heap
`Key` objects carry an extra `oid` field, minted freshly at every
`new Key(...)` site (`Heap.alloc` and `Key.add`), and the reference
counter's map compares keys by `oid` alone — exactly JS reference
equality under fresh minting.

The recursive evaluator (`evalInstr` / `evalCall` / `evalFunc`'s loop)
is unbounded (loops via `jmp`, recursion via `call`), so it is given a
fuel parameter; running out of fuel is a distinguished `Err.fuel`
outcome, never identified with the interpreter's own errors.
-/

/-- Bril static types (`bril.Type`): primitives and parameterized `ptr<T>`.
The `float` carrier below stands in for the host IEEE double; no verified
claim inspects float values. -/
inductive Ty where
  | int : Ty
  | bool : Ty
  | float : Ty
  | ptr : Ty → Ty
deriving DecidableEq, Repr

/-- Literal constants appearing in `const` instructions. JSON numbers are
integers here; the `Math.floor` coercion of the source is the identity on
them. -/
inductive Lit where
  | num : Int → Lit
  | bool : Bool → Lit
deriving DecidableEq, Repr

/-- Opcodes handled by `evalInstr`'s dispatch. The float arithmetic ops and
`print` are outside the verified fragment and omitted from the embedding;
no claim mentions them. -/
inductive Op where
  | const | id | add | mul | sub | div
  | le | lt | gt | ge | eq
  | not | and | or
  | jmp | br | ret | nop | call
  | alloc | free | store | load | ptradd
  | phi | speculate | guard | commit
deriving DecidableEq, Repr

/-- An instruction: one record covering the source's three shapes
(Constant / ValueOperation / EffectOperation); absent JSON fields are
`none` / `[]`. -/
structure Instr where
  op : Op
  dest : Option String := none
  type : Option Ty := none
  args : List String := []
  funcs : List String := []
  labels : List String := []
  value : Option Lit := none
deriving DecidableEq, Repr

/-- A code item of a function body: a label or an instruction. -/
inductive Code where
  | label : String → Code
  | instr : Instr → Code
deriving DecidableEq, Repr

/-- A function definition: name, parameters (name, type), optional return
type, body. -/
structure Func where
  name : String
  args : List (String × Ty) := []
  type : Option Ty := none
  instrs : List Code := []
deriving DecidableEq, Repr

/-- Heap access key (`class Key`): an allocation base and a signed offset.
The `oid` field models JS object identity (each `new Key(...)` makes a
distinct object); it is minted freshly by `Heap.alloc` and `Key.add` and
is what the reference counter's `Map<Key, number>` actually compares. -/
structure Key where
  oid : Nat
  base : Nat
  offset : Int
deriving DecidableEq, Repr

/-- Pointer run-time values: a heap key plus the pointee type. -/
structure Pointer where
  loc : Key
  type : Ty
deriving DecidableEq, Repr

/-- Run-time values: 64-bit signed integer, boolean, float (carrier not
inspected by any claim), or pointer. -/
inductive Value where
  | int : Int → Value
  | bool : Bool → Value
  | float : Int → Value
  | ptr : Pointer → Value
deriving DecidableEq, Repr

/-- Variable environments (`type Env = Map<bril.Ident, Value>`), as an
association list with unique keys maintained by `envSet`. -/
abbrev Env := List (String × Value)

/-- Env lookup (`env.get`). -/
def envGet : Env → String → Option Value
  | [], _ => none
  | kv :: rest, x => if kv.1 == x then some kv.2 else envGet rest x

/-- Env update (`env.set`): replace the existing binding or append. -/
def envSet (e : Env) (x : String) (v : Value) : Env :=
  match e with
  | [] => [(x, v)]
  | kv :: rest => if kv.1 == x then (x, v) :: rest else kv :: envSet rest x v

/-- Env deletion (`env.delete`). -/
def envDel (e : Env) (x : String) : Env :=
  e.filter (fun kv => kv.1 != x)

/-- Interpreter outcomes: a genuine interpreter error (`throw error(...)`
in the source, carrying the message) or fuel exhaustion of the embedding. -/
inductive Err where
  | fuel : Err
  | err : String → Err
deriving DecidableEq, Repr

/-- Dynamic type check (`typeCheck(val, typ)`): tag membership; for
pointers the pointee type is not re-checked. (The source's "unknown type"
throw is for malformed JSON types, unrepresentable in the closed `Ty`.) -/
def typeCheck (v : Value) (t : Ty) : Bool :=
  match t with
  | .int => match v with | .int _ => true | _ => false
  | .bool => match v with | .bool _ => true | _ => false
  | .float => match v with | .float _ => true | _ => false
  | .ptr _ => match v with | .ptr _ => true | _ => false

/-- Structural type equality (`typeCmp(lhs, rhs)`). -/
def typeCmp (lhs rhs : Ty) : Bool :=
  match lhs, rhs with
  | .int, r => r == Ty.int
  | .bool, r => r == Ty.bool
  | .float, r => r == Ty.float
  | .ptr a, .ptr b => typeCmp a b
  | .ptr _, _ => false

/-- The heap (`class Heap`): storage maps base numbers to fixed-length
slot arrays (a `none` slot is a JS array hole, i.e. uninitialized), and
`count` is the monotone base counter. -/
structure Heap where
  storage : List (Nat × List (Option Value)) := []
  count : Nat := 0
deriving DecidableEq, Repr

/-- Lookup in a base-keyed map (JS `Map<number, X[]>` access). -/
def nmLookup : List (Nat × List (Option Value)) → Nat → Option (List (Option Value))
  | [], _ => none
  | kv :: rest, b => if kv.1 == b then some kv.2 else nmLookup rest b

/-- Update in a base-keyed map: replace the entry or append it (JS
`Map.set`; keys are unique). -/
def nmUpdate : List (Nat × List (Option Value)) → Nat → List (Option Value) →
    List (Nat × List (Option Value))
  | [], b, d => [(b, d)]
  | kv :: rest, b, d => if kv.1 == b then (kv.1, d) :: rest else kv :: nmUpdate rest b d

/-- Removal from a base-keyed map (JS `Map.delete`; keys are unique, so
filtering every match coincides). -/
def nmRemove (l : List (Nat × List (Option Value))) (b : Nat) :
    List (Nat × List (Option Value)) :=
  l.filter (fun kv => kv.1 != b)

/-- Storage lookup by base (`this.storage.get(key.base)`). -/
def Heap.getData (h : Heap) (base : Nat) : Option (List (Option Value)) :=
  nmLookup h.storage base

/-- Heap emptiness (`isEmpty`). -/
def Heap.isEmpty (h : Heap) : Bool :=
  h.storage.isEmpty

/-- Allocation (`Heap.alloc`): positive amount required; mints a fresh
base and an array of `amt` uninitialized slots and returns `Key(base, 0)`.
`oid` is the fresh object id for the new `Key`. -/
def Heap.alloc (h : Heap) (oid : Nat) (amt : Int) : Except Err (Heap × Key) :=
  if amt ≤ 0 then
    .error (.err "cannot allocate entries")
  else
    .ok ({ storage := nmUpdate h.storage h.count (List.replicate amt.toNat none),
           count := h.count + 1 },
         { oid := oid, base := h.count, offset := 0 })

/-- Deallocation (`Heap.free`): requires a live base and offset 0. -/
def Heap.free (h : Heap) (k : Key) : Except Err Heap :=
  if (h.getData k.base).isSome && k.offset == 0 then
    .ok { h with storage := nmRemove h.storage k.base }
  else
    .error (.err "Tried to free illegal memory location. Offset must be 0.")

/-- Slot update helper for `Heap.write`. -/
def setSlot (data : List (Option Value)) (i : Nat) (v : Value) : List (Option Value) :=
  data.set i (some v)

/-- Heap write (`Heap.write`): requires a live base and
`0 <= offset < length`. -/
def Heap.write (h : Heap) (k : Key) (v : Value) : Except Err Heap :=
  match h.getData k.base with
  | some data =>
      if k.offset < data.length && 0 ≤ k.offset then
        .ok { h with storage := nmUpdate h.storage k.base (setSlot data k.offset.toNat v) }
      else
        .error (.err "Uninitialized heap location and/or illegal offset")
  | none => .error (.err "Uninitialized heap location and/or illegal offset")

/-- Heap read (`Heap.read`): same precondition as `write`; returns the
slot, which may still be the uninitialized sentinel (`none`). -/
def Heap.read (h : Heap) (k : Key) : Except Err (Option Value) :=
  match h.getData k.base with
  | some data =>
      if k.offset < data.length && 0 ≤ k.offset then
        .ok (data.getD k.offset.toNat none)
      else
        .error (.err "Uninitialized heap location and/or illegal offset")
  | none => .error (.err "Uninitialized heap location and/or illegal offset")

/-- Pointer arithmetic (`Key.add`): same base, advanced offset — and a
fresh `oid`, because the source allocates a new `Key` object. -/
def Key.add (k : Key) (oid : Nat) (off : Int) : Key :=
  { oid := oid, base := k.base, offset := k.offset + off }

/-- The reference counter (`class GC`): `Map<Key, number>` keyed by object
identity, i.e. by `oid`. -/
structure GC where
  referenceCounts : List (Key × Int) := []
deriving DecidableEq, Repr

/-- Lookup in the identity-keyed count map. -/
def gcLookup : List (Key × Int) → Nat → Option Int
  | [], _ => none
  | kv :: rest, o => if kv.1.oid == o then some kv.2 else gcLookup rest o

/-- Update in the identity-keyed count map: replace the entry of the same
identity or append (JS `Map.set` on object keys). -/
def gcUpdate : List (Key × Int) → Key → Int → List (Key × Int)
  | [], k, c => [(k, c)]
  | kv :: rest, k, c => if kv.1.oid == k.oid then (kv.1, c) :: rest else kv :: gcUpdate rest k c

/-- Count lookup (`this.referenceCounts.get(key)`) — JS object-key maps
compare by identity, here `oid`. -/
def GC.get (g : GC) (k : Key) : Option Int :=
  gcLookup g.referenceCounts k.oid

/-- Count update (`this.referenceCounts.set(key, count)`). -/
def GC.set (g : GC) (k : Key) (c : Int) : GC :=
  { referenceCounts := gcUpdate g.referenceCounts k c }

/-- Entry removal (`this.referenceCounts.delete(key)`); identities are
unique, so filtering every match coincides with JS `Map.delete`. -/
def GC.del (g : GC) (k : Key) : GC :=
  { referenceCounts := g.referenceCounts.filter (fun kv => kv.1.oid != k.oid) }

/-- `GC.addReference`: increment the count, initializing to 1 if unseen. -/
def GC.addReference (g : GC) (k : Key) : GC :=
  match g.get k with
  | none => g.set k 1
  | some c => g.set k (c + 1)

/-- `GC.removeReference`: drop the entry if present. -/
def GC.removeReference (g : GC) (k : Key) : GC :=
  if (g.get k).isSome then g.del k else g

/-- `GC.decrementReference`: decrement and store if tracked; returns the
new count (`undefined`, i.e. `none`, if the key was untracked). -/
def GC.decrementReference (g : GC) (k : Key) : Option Int × GC :=
  match g.get k with
  | none => (none, g)
  | some c => (some (c - 1), g.set k (c - 1))

/-- `GC.handleAssignment(dst, state, pointer)`: if `dst` currently binds a
Pointer, decrement its key's count; on reaching exactly 0, free the old
allocation from the heap and drop the count entry. Then increment the
count for the newly assigned pointer's key. Returns the updated counter
and heap (the two pieces of state it mutates). -/
def GC.handleAssignment (g : GC) (dst : String) (env : Env) (heap : Heap)
    (p : Pointer) : Except Err (GC × Heap) :=
  match envGet env dst with
  | some (.ptr old) =>
      let dec := g.decrementReference old.loc
      if dec.1 == some 0 then
        match heap.free old.loc with
        | .error e => .error e
        | .ok heap' => .ok ((dec.2.del old.loc).addReference p.loc, heap')
      else
        .ok (dec.2.addReference p.loc, heap)
  | _ => .ok (g.addReference p.loc, heap)

/-- Worker for `GC.clean`, walking the tracked entries. -/
def cleanEntries (entries : List (Key × Int)) (heap : Heap) : Except Err Heap :=
  match entries with
  | [] => .ok heap
  | (k, _) :: rest =>
      match heap.free k with
      | .error e => .error e
      | .ok heap' => cleanEntries rest heap'

/-- `GC.clean`: free every tracked allocation and clear the map. -/
def GC.clean (g : GC) (heap : Heap) : Except Err (GC × Heap) :=
  match cleanEntries g.referenceCounts heap with
  | .error e => .error e
  | .ok heap' => .ok ({ referenceCounts := [] }, heap')

/-- The trace recorder (`class Tracer`). -/
structure Tracer where
  trace : List (String × List Instr) := []
  functionCalls : List (String × Nat) := []
  traced : List String := []
  hotLimit : Nat
  active : Bool := false
  nowTracing : String := ""
deriving DecidableEq, Repr

/-- Lookup in a string-keyed map (JS `Map<string, X>` access). -/
def smLookup {β : Type} : List (String × β) → String → Option β
  | [], _ => none
  | kv :: rest, x => if kv.1 == x then some kv.2 else smLookup rest x

/-- Update in a string-keyed map: replace the entry or append it (JS
`Map.set`; keys are unique). -/
def smUpdate {β : Type} : List (String × β) → String → β → List (String × β)
  | [], x, v => [(x, v)]
  | kv :: rest, x, v => if kv.1 == x then (kv.1, v) :: rest else kv :: smUpdate rest x v

/-- Call-count lookup. -/
def Tracer.callCount (t : Tracer) (name : String) : Option Nat :=
  smLookup t.functionCalls name

/-- `Tracer.addFunctionCall`: bump the per-function call count
(initializing to 1). -/
def Tracer.addFunctionCall (t : Tracer) (name : String) : Tracer :=
  let newCount := match t.callCount name with
    | none => 1
    | some c => c + 1
  { t with functionCalls := smUpdate t.functionCalls name newCount }

/-- `Tracer.isHot`: the count has reached the hot limit (false if the
function was never counted). -/
def Tracer.isHot (t : Tracer) (name : String) : Bool :=
  match t.callCount name with
  | none => false
  | some c => t.hotLimit ≤ c

/-- `Tracer.isTraced`: membership in the fully-traced set. -/
def Tracer.isTraced (t : Tracer) (name : String) : Bool :=
  t.traced.contains name

/-- `Tracer.traceInstr`: append to the active log keyed by `nowTracing`,
if that log exists. -/
def Tracer.traceInstr (t : Tracer) (i : Instr) : Tracer :=
  match smLookup t.trace t.nowTracing with
  | some log => { t with trace := smUpdate t.trace t.nowTracing (log ++ [i]) }
  | none => t

/-- `Tracer.completeTracing`: mark a function fully traced. -/
def Tracer.completeTracing (t : Tracer) (name : String) : Tracer :=
  if t.traced.contains name then t else { t with traced := t.traced ++ [name] }

/-- `Tracer.isActive`. -/
def Tracer.isActive (t : Tracer) : Bool :=
  t.active

/-- `Tracer.activate`: set the active flag and current function, and
install a fresh empty log for it. -/
def Tracer.activate (t : Tracer) (name : String) : Tracer :=
  { t with active := true, nowTracing := name, trace := smUpdate t.trace name [] }

/-- `Tracer.deactivate`: clear the active flag, mark the currently traced
function as fully traced, and reset `nowTracing`. -/
def Tracer.deactivate (t : Tracer) : Tracer :=
  let t' := { t with active := false }
  let t'' := t'.completeTracing t.nowTracing
  { t'' with nowTracing := "" }

/-- Control-flow actions returned by `evalInstr` (the source's
`type Action`; that name is taken by Mathlib). `stop` is the source's
`end` action (End(optional value)); `end` is a Lean keyword. -/
inductive Act where
  | next : Act
  | jump : String → Act
  | stop : Option Value → Act
  | speculate : Act
  | commit : Act
  | abort : String → Act
deriving DecidableEq, Repr

/-- The interpreter state threaded through recursive calls (`type State`).
`specparent` is a full snapshot of the state taken at `speculate`
(`{...state}` in the source), hence the recursive occurrence. `keyfresh`
is the model's counter for minting JS object identities of `Key`s. -/
inductive St where
  | mk : (env : Env) → (heap : Heap) → (gc : GC) → (tracer : Tracer) →
         (gcenabled : Bool) → (disablefree : Bool) → (tracerenabled : Bool) →
         (funcs : List Func) → (icount : Nat) →
         (curlabel : Option String) → (lastlabel : Option String) →
         (specparent : Option St) → (keyfresh : Nat) → St

/-- Environment field of a state. -/
def St.env : St → Env
  | .mk e _ _ _ _ _ _ _ _ _ _ _ _ => e

/-- Heap field of a state. -/
def St.heap : St → Heap
  | .mk _ h _ _ _ _ _ _ _ _ _ _ _ => h

/-- Reference-counter field of a state. -/
def St.gc : St → GC
  | .mk _ _ g _ _ _ _ _ _ _ _ _ _ => g

/-- Tracer field of a state. -/
def St.tracer : St → Tracer
  | .mk _ _ _ t _ _ _ _ _ _ _ _ _ => t

/-- The `-gc` option flag. -/
def St.gcenabled : St → Bool
  | .mk _ _ _ _ b _ _ _ _ _ _ _ _ => b

/-- The `-df` option flag. -/
def St.disablefree : St → Bool
  | .mk _ _ _ _ _ b _ _ _ _ _ _ _ => b

/-- The `-tr` option flag. -/
def St.tracerenabled : St → Bool
  | .mk _ _ _ _ _ _ b _ _ _ _ _ _ => b

/-- Function table of a state. -/
def St.funcs : St → List Func
  | .mk _ _ _ _ _ _ _ fs _ _ _ _ _ => fs

/-- Dynamic instruction counter of a state. -/
def St.icount : St → Nat
  | .mk _ _ _ _ _ _ _ _ n _ _ _ _ => n

/-- Current label of a state. -/
def St.curlabel : St → Option String
  | .mk _ _ _ _ _ _ _ _ _ c _ _ _ => c

/-- Last-seen label of a state. -/
def St.lastlabel : St → Option String
  | .mk _ _ _ _ _ _ _ _ _ _ l _ _ => l

/-- Speculation snapshot of a state. -/
def St.specparent : St → Option St
  | .mk _ _ _ _ _ _ _ _ _ _ _ p _ => p

/-- Fresh-object-id counter of a state. -/
def St.keyfresh : St → Nat
  | .mk _ _ _ _ _ _ _ _ _ _ _ _ k => k

/-- Replace the environment. -/
def St.setEnv : St → Env → St
  | .mk _ h g t b1 b2 b3 fs n c l p k, e => .mk e h g t b1 b2 b3 fs n c l p k

/-- Replace the heap. -/
def St.setHeap : St → Heap → St
  | .mk e _ g t b1 b2 b3 fs n c l p k, h => .mk e h g t b1 b2 b3 fs n c l p k

/-- Replace the reference counter. -/
def St.setGc : St → GC → St
  | .mk e h _ t b1 b2 b3 fs n c l p k, g => .mk e h g t b1 b2 b3 fs n c l p k

/-- Replace the tracer. -/
def St.setTracer : St → Tracer → St
  | .mk e h g _ b1 b2 b3 fs n c l p k, t => .mk e h g t b1 b2 b3 fs n c l p k

/-- Replace the instruction counter. -/
def St.setIcount : St → Nat → St
  | .mk e h g t b1 b2 b3 fs _ c l p k, n => .mk e h g t b1 b2 b3 fs n c l p k

/-- Replace the current label. -/
def St.setCurlabel : St → Option String → St
  | .mk e h g t b1 b2 b3 fs n _ l p k, c => .mk e h g t b1 b2 b3 fs n c l p k

/-- Replace the last-seen label. -/
def St.setLastlabel : St → Option String → St
  | .mk e h g t b1 b2 b3 fs n c _ p k, l => .mk e h g t b1 b2 b3 fs n c l p k

/-- Replace the speculation snapshot. -/
def St.setSpecparent : St → Option St → St
  | .mk e h g t b1 b2 b3 fs n c l _ k, p => .mk e h g t b1 b2 b3 fs n c l p k

/-- Replace the fresh-object-id counter. -/
def St.setKeyfresh : St → Nat → St
  | .mk e h g t b1 b2 b3 fs n c l p _, k => .mk e h g t b1 b2 b3 fs n c l p k

/-- Expected argument counts (`argCounts` table); `none` means any number.
The table has no `const` entry and is never consulted for `const`. -/
def argCounts : Op → Option Nat
  | .add => some 2
  | .mul => some 2
  | .sub => some 2
  | .div => some 2
  | .id => some 1
  | .lt => some 2
  | .le => some 2
  | .gt => some 2
  | .ge => some 2
  | .eq => some 2
  | .not => some 1
  | .and => some 2
  | .or => some 2
  | .br => some 1
  | .jmp => some 0
  | .ret => none
  | .nop => some 0
  | .call => none
  | .alloc => some 1
  | .free => some 1
  | .store => some 2
  | .load => some 1
  | .ptradd => some 2
  | .phi => none
  | .speculate => some 0
  | .guard => some 1
  | .commit => some 0
  | .const => none

/-- Variable lookup (`get(env, ident)`): undefined variables are errors. -/
def getVar (env : Env) (ident : String) : Except Err Value :=
  match envGet env ident with
  | none => .error (.err "undefined variable")
  | some v => .ok v

/-- `getArgument(instr, env, index, typ?)`: positional argument fetch with
an optional dynamic type check. -/
def getArgument (instr : Instr) (env : Env) (index : Nat) (typ : Option Ty := none) :
    Except Err Value :=
  match instr.args.get? index with
  | none => .error (.err "expected more arguments")
  | some a =>
      match getVar env a with
      | .error e => .error e
      | .ok v =>
          match typ with
          | some t => if typeCheck v t then .ok v else .error (.err "argument has wrong type")
          | none => .ok v

/-- `getInt`: fetch an argument checked to be an Int. -/
def getInt (instr : Instr) (env : Env) (index : Nat) : Except Err Int :=
  match getArgument instr env index (some .int) with
  | .error e => .error e
  | .ok (.int n) => .ok n
  | .ok _ => .error (.err "argument has wrong type")

/-- `getBool`: fetch an argument checked to be a Bool. -/
def getBool (instr : Instr) (env : Env) (index : Nat) : Except Err Bool :=
  match getArgument instr env index (some .bool) with
  | .error e => .error e
  | .ok (.bool b) => .ok b
  | .ok _ => .error (.err "argument has wrong type")

/-- `getPtr`: fetch an argument that must be a Pointer. -/
def getPtr (instr : Instr) (env : Env) (index : Nat) : Except Err Pointer :=
  match getArgument instr env index with
  | .error e => .error e
  | .ok (.ptr p) => .ok p
  | .ok _ => .error (.err "argument must be a Pointer")

/-- `getLabel(instr, index)`: fetch a referenced label name. -/
def getLabel (instr : Instr) (index : Nat) : Except Err String :=
  match instr.labels.get? index with
  | none => .error (.err "missing labels")
  | some l => .ok l

/-- `getFunc(instr, index)`: fetch a referenced function name. -/
def getFuncName (instr : Instr) (index : Nat) : Except Err String :=
  match instr.funcs.get? index with
  | none => .error (.err "missing functions")
  | some f => .ok f

/-- `findFunc(func, funcs)`: the unique function of that name. -/
def findFunc (name : String) (funcs : List Func) : Except Err Func :=
  match funcs.filter (fun f => f.name == name) with
  | [] => .error (.err "no function of name found")
  | [f] => .ok f
  | _ => .error (.err "multiple functions of name found")

/-- `BigInt.asIntN(64, x)`: two's-complement wraparound to 64 bits. -/
def asIntN64 (x : Int) : Int :=
  (x + 2 ^ 63) % 2 ^ 64 - 2 ^ 63

/-- The standalone `alloc` helper: requires a pointer type and a positive
amount, then allocates on the heap and builds the Pointer value. -/
def allocPtr (ptrType : Ty) (oid : Nat) (amt : Int) (heap : Heap) :
    Except Err (Heap × Pointer) :=
  match ptrType with
  | .ptr dataType =>
      if amt ≤ 0 then
        .error (.err "must allocate a positive amount of memory")
      else
        match heap.alloc oid amt with
        | .error e => .error e
        | .ok (heap', loc) => .ok (heap', { loc := loc, type := dataType })
  | _ => .error (.err "unspecified pointer type")

/-- Index of the first matching Label item in a function body (the
label-scan loop at the bottom of `evalFunc`). -/
def findLabelIdx (f : Func) (l : String) : Option Nat :=
  f.instrs.findIdx? (fun c => match c with | .label l' => l' == l | .instr _ => false)

/-- Outcome of handling one action in `evalFunc`'s loop: either the
function returns a value, or the walk continues at an index. -/
inductive StepRes where
  | done : Option Value → St → StepRes
  | cont : Nat → St → StepRes

/-- Transfer control to a label (the scan in `evalFunc`, executed for any
action carrying a label): continue at the Label item's index, so the next
step visits the label and updates `curlabel`; a missing label is fatal. -/
def gotoLabel (f : Func) (l : String) (s : St) : Except Err StepRes :=
  match findLabelIdx f l with
  | some j => .ok (.cont j s)
  | none => .error (.err "label not found")

/-- The action switch of `evalFunc` for an instruction at index `i`:
End returns; Speculate snapshots the whole current state into
`specparent`; Commit requires and clears the snapshot; Abort requires the
snapshot, restores `env`, `lastlabel`, `curlabel` and the nested
`specparent` from it — deliberately not `icount` — and then transfers to
the abort label; Jump transfers; Next falls through. -/
def stepAction (f : Func) (i : Nat) (a : Act) (s : St) : Except Err StepRes :=
  match a with
  | .stop v => .ok (.done v s)
  | .speculate => .ok (.cont (i + 1) (s.setSpecparent (some s)))
  | .commit =>
      match s.specparent with
      | none => .error (.err "commit in non-speculative state")
      | some _ => .ok (.cont (i + 1) (s.setSpecparent none))
  | .abort l =>
      match s.specparent with
      | none => .error (.err "abort in non-speculative state")
      | some p =>
          gotoLabel f l ((((s.setEnv p.env).setLastlabel p.lastlabel).setCurlabel
            p.curlabel).setSpecparent p.specparent)
  | .next => .ok (.cont (i + 1) s)
  | .jump l => gotoLabel f l s

/-- The fresh child state built by `evalCall`: shares heap, gc, tracer,
options and the function table; fresh env; `icount` carried over; labels
cleared; speculation not allowed (`specparent` null). -/
def newCallState (s : St) (newEnv : Env) : St :=
  .mk newEnv s.heap s.gc s.tracer s.gcenabled s.disablefree s.tracerenabled
    s.funcs s.icount none none none s.keyfresh

/-- The tracer step `evalCall` performs before invoking the callee: if
tracing is enabled and the callee is not fully traced, count the call, and
if the callee is (now) hot, activate tracing on it. The source checks
neither that the count *equals* the limit nor that a trace is already
active. -/
def tracerBeforeCall (tracerenabled : Bool) (t : Tracer) (name : String) : Tracer :=
  if tracerenabled && !(t.isTraced name) then
    let t' := t.addFunctionCall name
    if t'.isHot name then t'.activate name else t'
  else t

/-- The tracer step `evalCall` performs after the callee returns: if
tracing is enabled and a trace is active, deactivate it (which also marks
`nowTracing` as fully traced) and mark the callee fully traced. -/
def tracerAfterCall (tracerenabled : Bool) (t : Tracer) (name : String) : Tracer :=
  if tracerenabled && t.isActive then
    (t.deactivate).completeTracing name
  else t

/-- Argument binding loop of `evalCall`: evaluate each actual in the
caller env and check it against the formal parameter's type. -/
def buildCallEnv (callerEnv : Env) : List (String × Ty) → List String → Except Err Env
  | [], [] => .ok []
  | [], _ :: _ => .error (.err "function argument arity mismatch")
  | _ :: _, [] => .error (.err "function argument arity mismatch")
  | (pname, pty) :: params, a :: args =>
      match getVar callerEnv a with
      | .error e => .error e
      | .ok v =>
          if typeCheck v pty then
            match buildCallEnv callerEnv params args with
            | .error e => .error e
            | .ok env => .ok (envSet env pname v)
          else .error (.err "function argument type mismatch")

/-- The triple of mutually recursive evaluation functions at one fuel
level: instruction evaluation, call evaluation, and the indexed walk of a
function body. -/
structure InterpFns where
  instr : Instr → St → Except Err (Act × St)
  call : Instr → St → Except Err St
  floop : Func → Nat → St → Except Err (Option Value × St)

/-- Destination accessor: the source's op cases read `instr.dest`
directly (TypeScript guarantees presence for value ops). -/
def getDest (instr : Instr) : Except Err String :=
  match instr.dest with
  | none => .error (.err "missing destination")
  | some d => .ok d

/-- Body of `evalInstr` at one fuel level. The preamble increments
`icount`, appends to an active trace, checks arity for every non-`const`
op with a fixed declared arity, and rejects `call`/`ret` during
speculation; then the op dispatch follows the source case by case. -/
def evalInstrBody (prev : InterpFns) (instr : Instr) (s0 : St) : Except Err (Act × St) := do
  let s := s0.setIcount (s0.icount + 1)
  let s := if s.tracer.isActive then s.setTracer (s.tracer.traceInstr instr) else s
  if instr.op != .const then
    match argCounts instr.op with
    | some n =>
        if instr.args.length != n then throw (.err "wrong number of arguments") else pure ()
    | none => pure ()
  else pure ()
  if s.specparent.isSome && (instr.op == .call || instr.op == .ret) then
    throw (.err "not allowed during speculation")
  else pure ()
  match instr.op with
  | .const => do
      let d ← getDest instr
      match instr.value with
      | none => throw (.err "missing constant value")
      | some (.num n) =>
          let v : Value := if instr.type == some Ty.float then .float n else .int n
          pure (.next, s.setEnv (envSet s.env d v))
      | some (.bool b) => pure (.next, s.setEnv (envSet s.env d (.bool b)))
  | .id => do
      let d ← getDest instr
      let val ← getArgument instr s.env 0
      match s.gcenabled, val with
      | true, .ptr p =>
          -- the source casts the value to Pointer unchecked; the cast is
          -- only sound (and only modelled) when the value is a pointer
          match s.gc.handleAssignment d s.env s.heap p with
          | .error e => throw e
          | .ok (g, h) =>
              let s := (s.setGc g).setHeap h
              pure (.next, s.setEnv (envSet s.env d val))
      | _, _ => pure (.next, s.setEnv (envSet s.env d val))
  | .add => do
      let d ← getDest instr
      let a ← getInt instr s.env 0
      let b ← getInt instr s.env 1
      pure (.next, s.setEnv (envSet s.env d (.int (asIntN64 (a + b)))))
  | .mul => do
      let d ← getDest instr
      let a ← getInt instr s.env 0
      let b ← getInt instr s.env 1
      pure (.next, s.setEnv (envSet s.env d (.int (asIntN64 (a * b)))))
  | .sub => do
      let d ← getDest instr
      let a ← getInt instr s.env 0
      let b ← getInt instr s.env 1
      pure (.next, s.setEnv (envSet s.env d (.int (asIntN64 (a - b)))))
  | .div => do
      let d ← getDest instr
      let a ← getInt instr s.env 0
      let b ← getInt instr s.env 1
      -- JS BigInt division truncates toward zero and throws a host
      -- RangeError on a zero divisor
      if b == 0 then throw (.err "division by zero")
      else pure (.next, s.setEnv (envSet s.env d (.int (asIntN64 (a.tdiv b)))))
  | .le => do
      let d ← getDest instr
      let a ← getInt instr s.env 0
      let b ← getInt instr s.env 1
      pure (.next, s.setEnv (envSet s.env d (.bool (decide (a ≤ b)))))
  | .lt => do
      let d ← getDest instr
      let a ← getInt instr s.env 0
      let b ← getInt instr s.env 1
      pure (.next, s.setEnv (envSet s.env d (.bool (decide (a < b)))))
  | .gt => do
      let d ← getDest instr
      let a ← getInt instr s.env 0
      let b ← getInt instr s.env 1
      pure (.next, s.setEnv (envSet s.env d (.bool (decide (b < a)))))
  | .ge => do
      let d ← getDest instr
      let a ← getInt instr s.env 0
      let b ← getInt instr s.env 1
      pure (.next, s.setEnv (envSet s.env d (.bool (decide (b ≤ a)))))
  | .eq => do
      let d ← getDest instr
      let a ← getInt instr s.env 0
      let b ← getInt instr s.env 1
      pure (.next, s.setEnv (envSet s.env d (.bool (a == b))))
  | .not => do
      let d ← getDest instr
      let b ← getBool instr s.env 0
      pure (.next, s.setEnv (envSet s.env d (.bool (!b))))
  | .and => do
      let d ← getDest instr
      let a ← getBool instr s.env 0
      let b ← getBool instr s.env 1
      pure (.next, s.setEnv (envSet s.env d (.bool (a && b))))
  | .or => do
      let d ← getDest instr
      let a ← getBool instr s.env 0
      let b ← getBool instr s.env 1
      pure (.next, s.setEnv (envSet s.env d (.bool (a || b))))
  | .jmp => do
      let l ← getLabel instr 0
      pure (.jump l, s)
  | .br => do
      let cond ← getBool instr s.env 0
      if cond then
        let l ← getLabel instr 0
        pure (.jump l, s)
      else
        let l ← getLabel instr 1
        pure (.jump l, s)
  | .ret =>
      match instr.args with
      | [] => pure (.stop none, s)
      | [a] => do
          let v ← getVar s.env a
          pure (.stop (some v), s)
      | _ => throw (.err "ret takes 0 or 1 arguments")
  | .nop => pure (.next, s)
  | .call => do
      let s' ← prev.call instr s
      pure (.next, s')
  | .alloc => do
      let d ← getDest instr
      let amt ← getInt instr s.env 0
      match instr.type with
      | some (Ty.ptr t) =>
          match allocPtr (Ty.ptr t) s.keyfresh amt s.heap with
          | .error e => throw e
          | .ok (h, p) =>
              let s := (s.setHeap h).setKeyfresh (s.keyfresh + 1)
              if s.gcenabled then
                match s.gc.handleAssignment d s.env s.heap p with
                | .error e => throw e
                | .ok (g, h') =>
                    let s := (s.setGc g).setHeap h'
                    pure (.next, s.setEnv (envSet s.env d (.ptr p)))
              else
                pure (.next, s.setEnv (envSet s.env d (.ptr p)))
      | _ => throw (.err "cannot allocate non-pointer type")
  | .free => do
      let val ← getPtr instr s.env 0
      if s.disablefree then pure (.next, s)
      else
        match s.heap.free val.loc with
        | .error e => throw e
        | .ok h => pure (.next, (s.setHeap h).setGc (s.gc.removeReference val.loc))
  | .store => do
      let target ← getPtr instr s.env 0
      let v ← getArgument instr s.env 1 (some target.type)
      match s.heap.write target.loc v with
      | .error e => throw e
      | .ok h => pure (.next, s.setHeap h)
  | .load => do
      let d ← getDest instr
      let p ← getPtr instr s.env 0
      match s.heap.read p.loc with
      | .error e => throw e
      | .ok none => throw (.err "Pointer points to uninitialized data")
      | .ok (some v) => pure (.next, s.setEnv (envSet s.env d v))
  | .ptradd => do
      let d ← getDest instr
      let p ← getPtr instr s.env 0
      let off ← getInt instr s.env 1
      let newp : Pointer := { loc := p.loc.add s.keyfresh off, type := p.type }
      pure (.next, (s.setKeyfresh (s.keyfresh + 1)).setEnv (envSet s.env d (.ptr newp)))
  | .phi => do
      let d ← getDest instr
      if instr.labels.length != instr.args.length then
        throw (.err "phi node has unequal numbers of labels and args")
      else
        match s.lastlabel with
        | none => throw (.err "phi node executed with no last label")
        | some last =>
            match instr.labels.findIdx? (fun l => l == last) with
            | none => pure (.next, s.setEnv (envDel s.env d))
            | some idx =>
                match instr.args.get? idx with
                | none => throw (.err "phi node needed more arguments")
                | some src =>
                    match envGet s.env src with
                    | none => pure (.next, s.setEnv (envDel s.env d))
                    | some v => pure (.next, s.setEnv (envSet s.env d v))
  | .speculate => pure (.speculate, s)
  | .guard => do
      let cond ← getBool instr s.env 0
      if cond then pure (.next, s)
      else
        let l ← getLabel instr 0
        pure (.abort l, s)
  | .commit => pure (.commit, s)

/-- Body of `evalCall` at one fuel level: resolve the unique callee, check
arity, build the argument environment under `typeCheck`, run the callee in
a fresh child state (with the pre-call tracer step applied), apply the
post-return tracer step, propagate the shared resources and `icount` back
into the caller, and perform the return-value typing protocol. -/
def evalCallBody (prev : InterpFns) (instr : Instr) (s : St) : Except Err St := do
  let funcName ← getFuncName instr 0
  let func ← findFunc funcName s.funcs
  if func.args.length != instr.args.length then
    throw (.err "function arity mismatch")
  else pure ()
  let newEnv ← buildCallEnv s.env func.args instr.args
  let t' := tracerBeforeCall s.tracerenabled s.tracer funcName
  let childState := (newCallState s newEnv).setTracer t'
  let res ← prev.floop func 0 childState
  let retVal := res.1
  let endState := res.2
  let t'' := tracerAfterCall s.tracerenabled endState.tracer funcName
  let s := ((((s.setHeap endState.heap).setGc endState.gc).setTracer t'').setIcount
    endState.icount).setKeyfresh endState.keyfresh
  match instr.dest with
  | none =>
      if retVal.isSome then throw (.err "unexpected value returned without destination")
      else if func.type.isSome then throw (.err "non-void function does not return anything")
      else pure s
  | some dest =>
      match instr.type with
      | none => throw (.err "function call must include a type if it has a destination")
      | some ty =>
          match retVal with
          | none => throw (.err "non-void function does not return anything")
          | some rv =>
              if !(typeCheck rv ty) then
                throw (.err "type of value returned by function does not match destination type")
              else
                match func.type with
                | none => throw (.err "function with void return type used in value call")
                | some fty =>
                    if !(typeCmp ty fty) then
                      throw (.err "type of value returned by function does not match declaration")
                    else pure (s.setEnv (envSet s.env dest rv))

/-- Body of `evalFunc`'s indexed walk at one fuel level: past the end of
the body, an implicit return is legal only outside speculation; a Label
item shifts the label trackers; an instruction is dispatched to
`evalInstr` and its action handled by `stepAction`. -/
def evalFuncLoopBody (prev : InterpFns) (f : Func) (i : Nat) (s : St) :
    Except Err (Option Value × St) :=
  match f.instrs.get? i with
  | none =>
      if s.specparent.isSome then .error (.err "implicit return in speculative state")
      else .ok (none, s)
  | some (.label l) => prev.floop f (i + 1) ((s.setLastlabel s.curlabel).setCurlabel (some l))
  | some (.instr ins) =>
      match prev.instr ins s with
      | .error e => .error e
      | .ok (a, s') =>
          match stepAction f i a s' with
          | .error e => .error e
          | .ok (.done v s'') => .ok (v, s'')
          | .ok (.cont j s'') => prev.floop f j s''

/-- The fueled interpreter knot: level 0 is out of fuel; level `n + 1`
ties the three bodies over level `n`. -/
def interp : Nat → InterpFns
  | 0 =>
      { instr := fun _ _ => .error .fuel,
        call := fun _ _ => .error .fuel,
        floop := fun _ _ _ => .error .fuel }
  | fuel + 1 =>
      let p := interp fuel
      { instr := evalInstrBody p, call := evalCallBody p, floop := evalFuncLoopBody p }

/-- `evalInstr(instr, state)` at a given fuel. -/
def evalInstr (fuel : Nat) (instr : Instr) (s : St) : Except Err (Act × St) :=
  (interp fuel).instr instr s

/-- `evalCall(instr, state)` at a given fuel. -/
def evalCall (fuel : Nat) (instr : Instr) (s : St) : Except Err St :=
  (interp fuel).call instr s

/-- The indexed walk of `evalFunc` at a given fuel. -/
def evalFuncLoop (fuel : Nat) (f : Func) (i : Nat) (s : St) :
    Except Err (Option Value × St) :=
  (interp fuel).floop f i s

/-- `evalFunc(func, state)`: walk the body from index 0. -/
def evalFunc (fuel : Nat) (f : Func) (s : St) : Except Err (Option Value × St) :=
  evalFuncLoop fuel f 0 s

/-!
Accessor/setter interaction lemmas for `St`: each setter changes exactly
its own field. All proofs are by cases on the state.
-/

@[simp] theorem St.env_setEnv (s : St) (x : Env) : (s.setEnv x).env = x := by cases s; rfl
@[simp] theorem St.heap_setEnv (s : St) (x : Env) : (s.setEnv x).heap = s.heap := by cases s; rfl
@[simp] theorem St.gc_setEnv (s : St) (x : Env) : (s.setEnv x).gc = s.gc := by cases s; rfl
@[simp] theorem St.tracer_setEnv (s : St) (x : Env) : (s.setEnv x).tracer = s.tracer := by cases s; rfl
@[simp] theorem St.gcenabled_setEnv (s : St) (x : Env) : (s.setEnv x).gcenabled = s.gcenabled := by cases s; rfl
@[simp] theorem St.disablefree_setEnv (s : St) (x : Env) : (s.setEnv x).disablefree = s.disablefree := by cases s; rfl
@[simp] theorem St.tracerenabled_setEnv (s : St) (x : Env) : (s.setEnv x).tracerenabled = s.tracerenabled := by cases s; rfl
@[simp] theorem St.funcs_setEnv (s : St) (x : Env) : (s.setEnv x).funcs = s.funcs := by cases s; rfl
@[simp] theorem St.icount_setEnv (s : St) (x : Env) : (s.setEnv x).icount = s.icount := by cases s; rfl
@[simp] theorem St.curlabel_setEnv (s : St) (x : Env) : (s.setEnv x).curlabel = s.curlabel := by cases s; rfl
@[simp] theorem St.lastlabel_setEnv (s : St) (x : Env) : (s.setEnv x).lastlabel = s.lastlabel := by cases s; rfl
@[simp] theorem St.specparent_setEnv (s : St) (x : Env) : (s.setEnv x).specparent = s.specparent := by cases s; rfl
@[simp] theorem St.keyfresh_setEnv (s : St) (x : Env) : (s.setEnv x).keyfresh = s.keyfresh := by cases s; rfl
@[simp] theorem St.env_setHeap (s : St) (x : Heap) : (s.setHeap x).env = s.env := by cases s; rfl
@[simp] theorem St.heap_setHeap (s : St) (x : Heap) : (s.setHeap x).heap = x := by cases s; rfl
@[simp] theorem St.gc_setHeap (s : St) (x : Heap) : (s.setHeap x).gc = s.gc := by cases s; rfl
@[simp] theorem St.tracer_setHeap (s : St) (x : Heap) : (s.setHeap x).tracer = s.tracer := by cases s; rfl
@[simp] theorem St.gcenabled_setHeap (s : St) (x : Heap) : (s.setHeap x).gcenabled = s.gcenabled := by cases s; rfl
@[simp] theorem St.disablefree_setHeap (s : St) (x : Heap) : (s.setHeap x).disablefree = s.disablefree := by cases s; rfl
@[simp] theorem St.tracerenabled_setHeap (s : St) (x : Heap) : (s.setHeap x).tracerenabled = s.tracerenabled := by cases s; rfl
@[simp] theorem St.funcs_setHeap (s : St) (x : Heap) : (s.setHeap x).funcs = s.funcs := by cases s; rfl
@[simp] theorem St.icount_setHeap (s : St) (x : Heap) : (s.setHeap x).icount = s.icount := by cases s; rfl
@[simp] theorem St.curlabel_setHeap (s : St) (x : Heap) : (s.setHeap x).curlabel = s.curlabel := by cases s; rfl
@[simp] theorem St.lastlabel_setHeap (s : St) (x : Heap) : (s.setHeap x).lastlabel = s.lastlabel := by cases s; rfl
@[simp] theorem St.specparent_setHeap (s : St) (x : Heap) : (s.setHeap x).specparent = s.specparent := by cases s; rfl
@[simp] theorem St.keyfresh_setHeap (s : St) (x : Heap) : (s.setHeap x).keyfresh = s.keyfresh := by cases s; rfl
@[simp] theorem St.env_setGc (s : St) (x : GC) : (s.setGc x).env = s.env := by cases s; rfl
@[simp] theorem St.heap_setGc (s : St) (x : GC) : (s.setGc x).heap = s.heap := by cases s; rfl
@[simp] theorem St.gc_setGc (s : St) (x : GC) : (s.setGc x).gc = x := by cases s; rfl
@[simp] theorem St.tracer_setGc (s : St) (x : GC) : (s.setGc x).tracer = s.tracer := by cases s; rfl
@[simp] theorem St.gcenabled_setGc (s : St) (x : GC) : (s.setGc x).gcenabled = s.gcenabled := by cases s; rfl
@[simp] theorem St.disablefree_setGc (s : St) (x : GC) : (s.setGc x).disablefree = s.disablefree := by cases s; rfl
@[simp] theorem St.tracerenabled_setGc (s : St) (x : GC) : (s.setGc x).tracerenabled = s.tracerenabled := by cases s; rfl
@[simp] theorem St.funcs_setGc (s : St) (x : GC) : (s.setGc x).funcs = s.funcs := by cases s; rfl
@[simp] theorem St.icount_setGc (s : St) (x : GC) : (s.setGc x).icount = s.icount := by cases s; rfl
@[simp] theorem St.curlabel_setGc (s : St) (x : GC) : (s.setGc x).curlabel = s.curlabel := by cases s; rfl
@[simp] theorem St.lastlabel_setGc (s : St) (x : GC) : (s.setGc x).lastlabel = s.lastlabel := by cases s; rfl
@[simp] theorem St.specparent_setGc (s : St) (x : GC) : (s.setGc x).specparent = s.specparent := by cases s; rfl
@[simp] theorem St.keyfresh_setGc (s : St) (x : GC) : (s.setGc x).keyfresh = s.keyfresh := by cases s; rfl
@[simp] theorem St.env_setTracer (s : St) (x : Tracer) : (s.setTracer x).env = s.env := by cases s; rfl
@[simp] theorem St.heap_setTracer (s : St) (x : Tracer) : (s.setTracer x).heap = s.heap := by cases s; rfl
@[simp] theorem St.gc_setTracer (s : St) (x : Tracer) : (s.setTracer x).gc = s.gc := by cases s; rfl
@[simp] theorem St.tracer_setTracer (s : St) (x : Tracer) : (s.setTracer x).tracer = x := by cases s; rfl
@[simp] theorem St.gcenabled_setTracer (s : St) (x : Tracer) : (s.setTracer x).gcenabled = s.gcenabled := by cases s; rfl
@[simp] theorem St.disablefree_setTracer (s : St) (x : Tracer) : (s.setTracer x).disablefree = s.disablefree := by cases s; rfl
@[simp] theorem St.tracerenabled_setTracer (s : St) (x : Tracer) : (s.setTracer x).tracerenabled = s.tracerenabled := by cases s; rfl
@[simp] theorem St.funcs_setTracer (s : St) (x : Tracer) : (s.setTracer x).funcs = s.funcs := by cases s; rfl
@[simp] theorem St.icount_setTracer (s : St) (x : Tracer) : (s.setTracer x).icount = s.icount := by cases s; rfl
@[simp] theorem St.curlabel_setTracer (s : St) (x : Tracer) : (s.setTracer x).curlabel = s.curlabel := by cases s; rfl
@[simp] theorem St.lastlabel_setTracer (s : St) (x : Tracer) : (s.setTracer x).lastlabel = s.lastlabel := by cases s; rfl
@[simp] theorem St.specparent_setTracer (s : St) (x : Tracer) : (s.setTracer x).specparent = s.specparent := by cases s; rfl
@[simp] theorem St.keyfresh_setTracer (s : St) (x : Tracer) : (s.setTracer x).keyfresh = s.keyfresh := by cases s; rfl
@[simp] theorem St.env_setIcount (s : St) (x : Nat) : (s.setIcount x).env = s.env := by cases s; rfl
@[simp] theorem St.heap_setIcount (s : St) (x : Nat) : (s.setIcount x).heap = s.heap := by cases s; rfl
@[simp] theorem St.gc_setIcount (s : St) (x : Nat) : (s.setIcount x).gc = s.gc := by cases s; rfl
@[simp] theorem St.tracer_setIcount (s : St) (x : Nat) : (s.setIcount x).tracer = s.tracer := by cases s; rfl
@[simp] theorem St.gcenabled_setIcount (s : St) (x : Nat) : (s.setIcount x).gcenabled = s.gcenabled := by cases s; rfl
@[simp] theorem St.disablefree_setIcount (s : St) (x : Nat) : (s.setIcount x).disablefree = s.disablefree := by cases s; rfl
@[simp] theorem St.tracerenabled_setIcount (s : St) (x : Nat) : (s.setIcount x).tracerenabled = s.tracerenabled := by cases s; rfl
@[simp] theorem St.funcs_setIcount (s : St) (x : Nat) : (s.setIcount x).funcs = s.funcs := by cases s; rfl
@[simp] theorem St.icount_setIcount (s : St) (x : Nat) : (s.setIcount x).icount = x := by cases s; rfl
@[simp] theorem St.curlabel_setIcount (s : St) (x : Nat) : (s.setIcount x).curlabel = s.curlabel := by cases s; rfl
@[simp] theorem St.lastlabel_setIcount (s : St) (x : Nat) : (s.setIcount x).lastlabel = s.lastlabel := by cases s; rfl
@[simp] theorem St.specparent_setIcount (s : St) (x : Nat) : (s.setIcount x).specparent = s.specparent := by cases s; rfl
@[simp] theorem St.keyfresh_setIcount (s : St) (x : Nat) : (s.setIcount x).keyfresh = s.keyfresh := by cases s; rfl
@[simp] theorem St.env_setCurlabel (s : St) (x : Option String) : (s.setCurlabel x).env = s.env := by cases s; rfl
@[simp] theorem St.heap_setCurlabel (s : St) (x : Option String) : (s.setCurlabel x).heap = s.heap := by cases s; rfl
@[simp] theorem St.gc_setCurlabel (s : St) (x : Option String) : (s.setCurlabel x).gc = s.gc := by cases s; rfl
@[simp] theorem St.tracer_setCurlabel (s : St) (x : Option String) : (s.setCurlabel x).tracer = s.tracer := by cases s; rfl
@[simp] theorem St.gcenabled_setCurlabel (s : St) (x : Option String) : (s.setCurlabel x).gcenabled = s.gcenabled := by cases s; rfl
@[simp] theorem St.disablefree_setCurlabel (s : St) (x : Option String) : (s.setCurlabel x).disablefree = s.disablefree := by cases s; rfl
@[simp] theorem St.tracerenabled_setCurlabel (s : St) (x : Option String) : (s.setCurlabel x).tracerenabled = s.tracerenabled := by cases s; rfl
@[simp] theorem St.funcs_setCurlabel (s : St) (x : Option String) : (s.setCurlabel x).funcs = s.funcs := by cases s; rfl
@[simp] theorem St.icount_setCurlabel (s : St) (x : Option String) : (s.setCurlabel x).icount = s.icount := by cases s; rfl
@[simp] theorem St.curlabel_setCurlabel (s : St) (x : Option String) : (s.setCurlabel x).curlabel = x := by cases s; rfl
@[simp] theorem St.lastlabel_setCurlabel (s : St) (x : Option String) : (s.setCurlabel x).lastlabel = s.lastlabel := by cases s; rfl
@[simp] theorem St.specparent_setCurlabel (s : St) (x : Option String) : (s.setCurlabel x).specparent = s.specparent := by cases s; rfl
@[simp] theorem St.keyfresh_setCurlabel (s : St) (x : Option String) : (s.setCurlabel x).keyfresh = s.keyfresh := by cases s; rfl
@[simp] theorem St.env_setLastlabel (s : St) (x : Option String) : (s.setLastlabel x).env = s.env := by cases s; rfl
@[simp] theorem St.heap_setLastlabel (s : St) (x : Option String) : (s.setLastlabel x).heap = s.heap := by cases s; rfl
@[simp] theorem St.gc_setLastlabel (s : St) (x : Option String) : (s.setLastlabel x).gc = s.gc := by cases s; rfl
@[simp] theorem St.tracer_setLastlabel (s : St) (x : Option String) : (s.setLastlabel x).tracer = s.tracer := by cases s; rfl
@[simp] theorem St.gcenabled_setLastlabel (s : St) (x : Option String) : (s.setLastlabel x).gcenabled = s.gcenabled := by cases s; rfl
@[simp] theorem St.disablefree_setLastlabel (s : St) (x : Option String) : (s.setLastlabel x).disablefree = s.disablefree := by cases s; rfl
@[simp] theorem St.tracerenabled_setLastlabel (s : St) (x : Option String) : (s.setLastlabel x).tracerenabled = s.tracerenabled := by cases s; rfl
@[simp] theorem St.funcs_setLastlabel (s : St) (x : Option String) : (s.setLastlabel x).funcs = s.funcs := by cases s; rfl
@[simp] theorem St.icount_setLastlabel (s : St) (x : Option String) : (s.setLastlabel x).icount = s.icount := by cases s; rfl
@[simp] theorem St.curlabel_setLastlabel (s : St) (x : Option String) : (s.setLastlabel x).curlabel = s.curlabel := by cases s; rfl
@[simp] theorem St.lastlabel_setLastlabel (s : St) (x : Option String) : (s.setLastlabel x).lastlabel = x := by cases s; rfl
@[simp] theorem St.specparent_setLastlabel (s : St) (x : Option String) : (s.setLastlabel x).specparent = s.specparent := by cases s; rfl
@[simp] theorem St.keyfresh_setLastlabel (s : St) (x : Option String) : (s.setLastlabel x).keyfresh = s.keyfresh := by cases s; rfl
@[simp] theorem St.env_setSpecparent (s : St) (x : Option St) : (s.setSpecparent x).env = s.env := by cases s; rfl
@[simp] theorem St.heap_setSpecparent (s : St) (x : Option St) : (s.setSpecparent x).heap = s.heap := by cases s; rfl
@[simp] theorem St.gc_setSpecparent (s : St) (x : Option St) : (s.setSpecparent x).gc = s.gc := by cases s; rfl
@[simp] theorem St.tracer_setSpecparent (s : St) (x : Option St) : (s.setSpecparent x).tracer = s.tracer := by cases s; rfl
@[simp] theorem St.gcenabled_setSpecparent (s : St) (x : Option St) : (s.setSpecparent x).gcenabled = s.gcenabled := by cases s; rfl
@[simp] theorem St.disablefree_setSpecparent (s : St) (x : Option St) : (s.setSpecparent x).disablefree = s.disablefree := by cases s; rfl
@[simp] theorem St.tracerenabled_setSpecparent (s : St) (x : Option St) : (s.setSpecparent x).tracerenabled = s.tracerenabled := by cases s; rfl
@[simp] theorem St.funcs_setSpecparent (s : St) (x : Option St) : (s.setSpecparent x).funcs = s.funcs := by cases s; rfl
@[simp] theorem St.icount_setSpecparent (s : St) (x : Option St) : (s.setSpecparent x).icount = s.icount := by cases s; rfl
@[simp] theorem St.curlabel_setSpecparent (s : St) (x : Option St) : (s.setSpecparent x).curlabel = s.curlabel := by cases s; rfl
@[simp] theorem St.lastlabel_setSpecparent (s : St) (x : Option St) : (s.setSpecparent x).lastlabel = s.lastlabel := by cases s; rfl
@[simp] theorem St.specparent_setSpecparent (s : St) (x : Option St) : (s.setSpecparent x).specparent = x := by cases s; rfl
@[simp] theorem St.keyfresh_setSpecparent (s : St) (x : Option St) : (s.setSpecparent x).keyfresh = s.keyfresh := by cases s; rfl
@[simp] theorem St.env_setKeyfresh (s : St) (x : Nat) : (s.setKeyfresh x).env = s.env := by cases s; rfl
@[simp] theorem St.heap_setKeyfresh (s : St) (x : Nat) : (s.setKeyfresh x).heap = s.heap := by cases s; rfl
@[simp] theorem St.gc_setKeyfresh (s : St) (x : Nat) : (s.setKeyfresh x).gc = s.gc := by cases s; rfl
@[simp] theorem St.tracer_setKeyfresh (s : St) (x : Nat) : (s.setKeyfresh x).tracer = s.tracer := by cases s; rfl
@[simp] theorem St.gcenabled_setKeyfresh (s : St) (x : Nat) : (s.setKeyfresh x).gcenabled = s.gcenabled := by cases s; rfl
@[simp] theorem St.disablefree_setKeyfresh (s : St) (x : Nat) : (s.setKeyfresh x).disablefree = s.disablefree := by cases s; rfl
@[simp] theorem St.tracerenabled_setKeyfresh (s : St) (x : Nat) : (s.setKeyfresh x).tracerenabled = s.tracerenabled := by cases s; rfl
@[simp] theorem St.funcs_setKeyfresh (s : St) (x : Nat) : (s.setKeyfresh x).funcs = s.funcs := by cases s; rfl
@[simp] theorem St.icount_setKeyfresh (s : St) (x : Nat) : (s.setKeyfresh x).icount = s.icount := by cases s; rfl
@[simp] theorem St.curlabel_setKeyfresh (s : St) (x : Nat) : (s.setKeyfresh x).curlabel = s.curlabel := by cases s; rfl
@[simp] theorem St.lastlabel_setKeyfresh (s : St) (x : Nat) : (s.setKeyfresh x).lastlabel = s.lastlabel := by cases s; rfl
@[simp] theorem St.specparent_setKeyfresh (s : St) (x : Nat) : (s.setKeyfresh x).specparent = s.specparent := by cases s; rfl
@[simp] theorem St.keyfresh_setKeyfresh (s : St) (x : Nat) : (s.setKeyfresh x).keyfresh = x := by cases s; rfl

/-- Empty base state used by concrete runs: no bindings, fresh heap and
counter, hot limit 5 (the source's module-level `hotLimit`), all options
off, no functions, counters zero, no labels, no speculation. -/
def baseSt : St :=
  .mk [] {} {} { hotLimit := 5 } false false false [] 0 none none none 0

/-- A `findIdx?` search fails on any list that does not contain the
element, whatever the start index. -/
theorem findIdx_eq_none_of_not_contains (l : List String) (x : String) :
    l.contains x = false → ∀ start : Nat, l.findIdx? (fun y => y == x) start = none := by
  induction l with
  | nil => intro _ _; rfl
  | cons a as ih =>
      intro h start
      simp only [List.contains_cons, Bool.or_eq_false_iff] at h
      have hxa : x ≠ a := by simpa using h.1
      have hax : (a == x) = false := by simpa using hxa.symm
      simp only [List.findIdx?_cons, hax]
      simpa using ih h.2 (start + 1)

/-- Deleting a binding leaves the name unbound. -/
theorem envGet_envDel (e : Env) (d : String) : envGet (envDel e d) d = none := by
  induction e with
  | nil => rfl
  | cons kv rest ih =>
      by_cases hkv : kv.1 = d
      · simpa [envDel, List.filter_cons, hkv] using ih
      · simpa [envDel, envGet, List.filter_cons, hkv] using ih

/-- A phi instruction with no last label seen: the source throws
("phi node executed with no last label"). Concrete run refuting the
claim that evaluation does not fail in this case. -/
theorem phi_no_lastlabel_fails :
    evalInstr 1 { op := .phi, dest := some "d", args := ["x"], labels := ["a"] } baseSt =
      .error (.err "phi node executed with no last label") := rfl

/-- Phi with equal-length labels/args lists: when `lastlabel` is present
but not in the label list, the destination's binding is deleted (leaving
it unbound) and execution proceeds to the next instruction; when
`lastlabel` is absent, evaluation fails with
"phi node executed with no last label". -/
theorem phi_lastlabel_cases (fuel : Nat) (instr : Instr) (s : St) (d L : String)
    (hop : instr.op = .phi) (hd : instr.dest = some d)
    (hlen : instr.labels.length = instr.args.length)
    (htr : s.tracer.isActive = false) :
    (s.lastlabel = some L → instr.labels.contains L = false →
      evalInstr (fuel + 1) instr s =
        .ok (.next, (s.setIcount (s.icount + 1)).setEnv (envDel s.env d)) ∧
      envGet (envDel s.env d) d = none) ∧
    (s.lastlabel = none →
      evalInstr (fuel + 1) instr s = .error (.err "phi node executed with no last label")) := by
  have e1 : (Op.phi != Op.const) = true := rfl
  have e2 : (Op.phi == Op.call || Op.phi == Op.ret) = false := rfl
  constructor
  · intro hlast hcon
    refine ⟨?_, envGet_envDel s.env d⟩
    have hidx := findIdx_eq_none_of_not_contains instr.labels L hcon 0
    simp only [evalInstr, interp]
    unfold evalInstrBody
    simp [hop, hd, hlen, htr, hlast, hidx, getDest, argCounts, e1, e2]
  · intro hlast
    simp only [evalInstr, interp]
    unfold evalInstrBody
    simp [hop, hd, hlen, htr, hlast, getDest, argCounts, e1, e2]
    rfl


/-- A `gcUpdate` is visible through every key of the same identity. -/
theorem gcLookup_update_same (l : List (Key × Int)) (k : Key) (c : Int) (o : Nat)
    (h : k.oid = o) : gcLookup (gcUpdate l k c) o = some c := by
  induction l with
  | nil => simp [gcUpdate, gcLookup, h]
  | cons kv rest ih =>
      by_cases hp : kv.1.oid = k.oid
      · simp [gcUpdate, gcLookup, hp, h]
      · have : (kv.1.oid == o) = false := by simp; omega
        simp [gcUpdate, gcLookup, hp, this, ih]

/-- A `gcUpdate` is invisible through every key of a different identity. -/
theorem gcLookup_update_ne (l : List (Key × Int)) (k : Key) (c : Int) (o : Nat)
    (h : k.oid ≠ o) : gcLookup (gcUpdate l k c) o = gcLookup l o := by
  have hko : (k.oid == o) = false := by simp; omega
  induction l with
  | nil => simp [gcUpdate, gcLookup, hko]
  | cons kv rest ih =>
      by_cases hp : kv.1.oid = k.oid
      · have h1 : (kv.1.oid == k.oid) = true := by simp [hp]
        have h2 : (kv.1.oid == o) = false := by simp [hp]; omega
        simp [gcUpdate, gcLookup, h1, h2]
      · have h1 : (kv.1.oid == k.oid) = false := by simp [hp]
        by_cases hq : kv.1.oid = o
        · have h2 : (kv.1.oid == o) = true := by simp [hq]
          simp [gcUpdate, gcLookup, h1, h2]
        · have h2 : (kv.1.oid == o) = false := by simp [hq]
          simp [gcUpdate, gcLookup, h1, h2, ih]

/-- After filtering an identity out, lookups of that identity fail. -/
theorem gcLookup_filter_self (l : List (Key × Int)) (o : Nat) :
    gcLookup (l.filter (fun kv => kv.1.oid != o)) o = none := by
  induction l with
  | nil => rfl
  | cons kv rest ih =>
      by_cases hp : kv.1.oid = o
      · simpa [List.filter_cons, hp] using ih
      · simpa [List.filter_cons, gcLookup, hp] using ih

/-- Filtering one identity out leaves different identities unchanged. -/
theorem gcLookup_filter_ne (l : List (Key × Int)) (o o' : Nat) (h : o ≠ o') :
    gcLookup (l.filter (fun kv => kv.1.oid != o)) o' = gcLookup l o' := by
  induction l with
  | nil => rfl
  | cons kv rest ih =>
      by_cases hp : kv.1.oid = o
      · have h1 : (kv.1.oid != o) = false := by simp [hp]
        have h2 : (kv.1.oid == o') = false := by simp [hp]; omega
        simp [List.filter_cons, gcLookup, h1, h2, ih]
      · have h1 : (kv.1.oid != o) = true := by simp [hp]
        by_cases hq : kv.1.oid = o'
        · have h2 : (kv.1.oid == o') = true := by simp [hq]
          simp [List.filter_cons, gcLookup, h1, h2]
        · have h2 : (kv.1.oid == o') = false := by simp [hq]
          simp [List.filter_cons, gcLookup, h1, h2, ih]

/-- Updating then deleting the same identity is just deleting it. -/
theorem gcUpdate_filter (l : List (Key × Int)) (k : Key) (c : Int) :
    (gcUpdate l k c).filter (fun kv => kv.1.oid != k.oid)
      = l.filter (fun kv => kv.1.oid != k.oid) := by
  induction l with
  | nil => simp [gcUpdate, List.filter_cons]
  | cons kv rest ih =>
      by_cases hp : kv.1.oid = k.oid
      · simp [gcUpdate, List.filter_cons, hp]
      · simp [gcUpdate, List.filter_cons, hp, ih]

/-- Lookups through keys of the same identity coincide. -/
theorem GC.get_congr (g : GC) (k k' : Key) (h : k.oid = k'.oid) :
    g.get k = g.get k' := by
  unfold GC.get
  rw [h]

/-- A `set` is visible through every key of the same identity. -/
theorem GC.get_set_same (g : GC) (k k' : Key) (c : Int) (h : k.oid = k'.oid) :
    (g.set k c).get k' = some c :=
  gcLookup_update_same g.referenceCounts k c k'.oid h

/-- A `set` is invisible through every key of a different identity. -/
theorem GC.get_set_ne (g : GC) (k k' : Key) (c : Int) (h : k.oid ≠ k'.oid) :
    (g.set k c).get k' = g.get k' :=
  gcLookup_update_ne g.referenceCounts k c k'.oid h

/-- A `del` erases the entry of every key of the same identity. -/
theorem GC.get_del_same (g : GC) (k k' : Key) (h : k.oid = k'.oid) :
    (g.del k).get k' = none := by
  unfold GC.get GC.del
  rw [← h]
  exact gcLookup_filter_self g.referenceCounts k.oid

/-- A `del` leaves keys of a different identity unchanged. -/
theorem GC.get_del_ne (g : GC) (k k' : Key) (h : k.oid ≠ k'.oid) :
    (g.del k).get k' = g.get k' :=
  gcLookup_filter_ne g.referenceCounts k.oid k'.oid h

/-- Setting then deleting the same identity is just deleting it. -/
theorem GC.set_del (g : GC) (k : Key) (c : Int) : (g.set k c).del k = g.del k := by
  unfold GC.set GC.del
  simp [gcUpdate_filter]

/-- `addReference` through one key is visible through every key of the
same identity: the old count plus one, i.e. one if the key was unseen. -/
theorem GC.get_add_same (g : GC) (k k' : Key) (h : k.oid = k'.oid) :
    (g.addReference k).get k' = some ((g.get k).getD 0 + 1) := by
  unfold GC.addReference
  cases hg : g.get k with
  | none => simpa [hg] using GC.get_set_same g k k' 1 h
  | some c => simpa [hg] using GC.get_set_same g k k' (c + 1) h

/-- `addReference` through one key leaves every key of a different
identity unchanged. -/
theorem GC.get_add_ne (g : GC) (k k' : Key) (h : k.oid ≠ k'.oid) :
    (g.addReference k).get k' = g.get k' := by
  unfold GC.addReference
  cases hg : g.get k with
  | none => exact GC.get_set_ne g k k' 1 h
  | some c => exact GC.get_set_ne g k k' (c + 1) h

/-- Two Keys with equal base and equal offset but distinct identities:
incrementing through one and then decrementing through the other does
not act on the same entry — the decrement finds no count (`none`) and
leaves the counter unchanged, and incrementing through both creates two
separate entries. Refutes counting under structural Key equality. -/
theorem gc_structural_equality_counterexample :
    (Key.mk 0 0 0).base = (Key.mk 1 0 0).base ∧
    (Key.mk 0 0 0).offset = (Key.mk 1 0 0).offset ∧
    Key.mk 0 0 0 ≠ Key.mk 1 0 0 ∧
    ((GC.mk []).addReference (Key.mk 0 0 0)).decrementReference (Key.mk 1 0 0)
      = (none, (GC.mk []).addReference (Key.mk 0 0 0)) ∧
    (((GC.mk []).addReference (Key.mk 0 0 0)).addReference (Key.mk 1 0 0)).referenceCounts
      = [(Key.mk 0 0 0, 1), (Key.mk 1 0 0, 1)] := by
  refine ⟨rfl, rfl, by decide, rfl, rfl⟩

/-- The reference counter keeps one count per Key object, i.e. per JS
reference identity (`oid` in the model): operations through keys of the
same identity act on one entry (increment adds one, initializing a fresh
entry to one; decrement reads the same entry), while keys of a different
identity — even with equal base and offset — leave the entry untouched. -/
theorem gc_identity_semantics (g : GC) (k k' : Key) :
    (k.oid = k'.oid → (g.addReference k).get k' = some ((g.get k).getD 0 + 1)) ∧
    (k.oid = k'.oid → (g.decrementReference k').1 = (g.get k).map (fun c => c - 1)) ∧
    (k.oid ≠ k'.oid → (g.addReference k).get k' = g.get k') ∧
    (k.oid ≠ k'.oid → ((g.addReference k).decrementReference k').1
      = (g.get k').map (fun c => c - 1)) := by
  refine ⟨fun h => GC.get_add_same g k k' h, ?_, fun h => GC.get_add_ne g k k' h, ?_⟩
  · intro h
    have hc := GC.get_congr g k k' h
    rw [hc]
    cases hg : g.get k' with
    | none => simp [GC.decrementReference, hg]
    | some c => simp [GC.decrementReference, hg]
  · intro h
    have ha := GC.get_add_ne g k k' h
    cases hg : g.get k' with
    | none => simp [GC.decrementReference, ha, hg]
    | some c => simp [GC.decrementReference, ha, hg]

/-- Witness for `gc_identity_semantics` at a concrete counter. -/
theorem gc_identity_semantics_witness :
    (Key.mk 5 1 2).oid = (Key.mk 5 1 2).oid ∧
    ((GC.mk [(Key.mk 5 1 2, 3)]).addReference (Key.mk 5 1 2)).get (Key.mk 5 1 2) = some 4 := by
  refine ⟨rfl, ?_⟩
  have h := (gc_identity_semantics (GC.mk [(Key.mk 5 1 2, 3)]) (Key.mk 5 1 2) (Key.mk 5 1 2)).1 rfl
  simpa using h

/-- `GC.handleAssignment` when the destination currently binds a Pointer
whose key is tracked with count `c`: the count is decremented; exactly
when it reaches 0 the old allocation is freed from the heap and the count
entry dropped; and the new pointer's key is incremented — to old + 1, or
initialized to 1 if unseen. -/
theorem gc_handleAssignment_spec (g : GC) (dst : String) (env : Env) (heap : Heap)
    (p old : Pointer) (c : Int)
    (hbind : envGet env dst = some (.ptr old))
    (hcount : g.get old.loc = some c) :
    (c ≠ 1 → g.handleAssignment dst env heap p =
        .ok ((g.set old.loc (c - 1)).addReference p.loc, heap)) ∧
    (∀ heap', c = 1 → heap.free old.loc = .ok heap' →
      g.handleAssignment dst env heap p =
        .ok ((g.del old.loc).addReference p.loc, heap')) ∧
    (g.del old.loc).get old.loc = none ∧
    (∀ (g' : GC) (q : Key), g'.get q = none → (g'.addReference q).get q = some 1) ∧
    (∀ (g' : GC) (q : Key) (c' : Int), g'.get q = some c' →
      (g'.addReference q).get q = some (c' + 1)) := by
  have hdec : g.decrementReference old.loc = (some (c - 1), g.set old.loc (c - 1)) := by
    simp [GC.decrementReference, hcount]
  refine ⟨?_, ?_, GC.get_del_same g old.loc old.loc rfl, ?_, ?_⟩
  · intro hc
    have hne : (some (c - 1) == some (0 : Int)) = false := by
      simp
      omega
    simp [GC.handleAssignment, hbind, hdec, hne]
  · intro heap' hc hfree
    subst hc
    have heq : (some (1 - 1 : Int) == some (0 : Int)) = true := by simp
    simp [GC.handleAssignment, hbind, hdec, heq, hfree, GC.set_del]
  · intro g' q hq
    simpa [hq] using GC.get_add_same g' q q rfl
  · intro g' q c' hq
    simpa [hq] using GC.get_add_same g' q q rfl

/-- Witness for `gc_handleAssignment_spec` at a concrete state: the old
pointer's count is 1, so the assignment frees the old allocation and
drops the entry, then installs the new pointer's count. -/
theorem gc_handleAssignment_spec_witness :
    envGet [("x", Value.ptr ⟨⟨7, 0, 0⟩, .int⟩)] "x" = some (.ptr ⟨⟨7, 0, 0⟩, .int⟩) ∧
    (GC.mk [(⟨7, 0, 0⟩, 1)]).get ⟨7, 0, 0⟩ = some 1 ∧
    (Heap.mk [(0, [none])] 1).free ⟨7, 0, 0⟩ = .ok (Heap.mk [] 1) ∧
    (GC.mk [(⟨7, 0, 0⟩, 1)]).handleAssignment "x" [("x", Value.ptr ⟨⟨7, 0, 0⟩, .int⟩)]
        (Heap.mk [(0, [none])] 1) ⟨⟨8, 0, 0⟩, .int⟩
      = .ok (((GC.mk [(⟨7, 0, 0⟩, 1)]).del ⟨7, 0, 0⟩).addReference ⟨8, 0, 0⟩,
             Heap.mk [] 1) := by
  refine ⟨rfl, rfl, rfl, ?_⟩
  exact ((gc_handleAssignment_spec (GC.mk [(⟨7, 0, 0⟩, 1)]) "x"
    [("x", Value.ptr ⟨⟨7, 0, 0⟩, .int⟩)] (Heap.mk [(0, [none])] 1)
    ⟨⟨8, 0, 0⟩, .int⟩ ⟨⟨7, 0, 0⟩, .int⟩ 1 rfl rfl).2.1 (Heap.mk [] 1) rfl rfl)

/-- Witness for `phi_lastlabel_cases` at a concrete phi and state whose
last label is present but not among the phi's labels. -/
theorem phi_lastlabel_cases_witness :
    (St.mk [("d", Value.int 1)] {} {} { hotLimit := 5 } false false false [] 0 none
        (some "b") none 0).lastlabel = some "b" ∧
    (({ op := .phi, dest := some "d", args := ["x"], labels := ["a"] : Instr}).labels.contains
        "b") = false ∧
    evalInstr 1 { op := .phi, dest := some "d", args := ["x"], labels := ["a"] }
        (St.mk [("d", Value.int 1)] {} {} { hotLimit := 5 } false false false [] 0 none
          (some "b") none 0) =
      .ok (.next,
        ((St.mk [("d", Value.int 1)] {} {} { hotLimit := 5 } false false false [] 0 none
            (some "b") none 0).setIcount
          ((St.mk [("d", Value.int 1)] {} {} { hotLimit := 5 } false false false [] 0 none
            (some "b") none 0).icount + 1)).setEnv
          (envDel [("d", Value.int 1)] "d")) := by
  refine ⟨rfl, rfl, ?_⟩
  exact ((phi_lastlabel_cases 0
    { op := .phi, dest := some "d", args := ["x"], labels := ["a"] }
    (St.mk [("d", Value.int 1)] {} {} { hotLimit := 5 } false false false [] 0 none
      (some "b") none 0) "d" "b" rfl rfl rfl rfl).1 rfl rfl).1

/-- `completeTracing` puts its argument in the traced set. -/
theorem Tracer.contains_completeTracing_self (t : Tracer) (u : String) :
    (t.completeTracing u).traced.contains u = true := by
  unfold Tracer.completeTracing
  by_cases h : u ∈ t.traced
  · simp [h]
  · simp [h]

/-- `completeTracing` keeps everything already traced. -/
theorem Tracer.contains_completeTracing_mono (t : Tracer) (u x : String)
    (h : t.traced.contains x = true) :
    (t.completeTracing u).traced.contains x = true := by
  have h' : x ∈ t.traced := by simpa using h
  unfold Tracer.completeTracing
  by_cases hc : u ∈ t.traced
  · simp [hc, h']
  · simp [hc, h']

/-- `completeTracing` does not touch the active flag. -/
theorem Tracer.active_completeTracing (t : Tracer) (u : String) :
    (t.completeTracing u).active = t.active := by
  unfold Tracer.completeTracing
  split <;> rfl

/-- `completeTracing` does not touch `nowTracing`. -/
theorem Tracer.nowTracing_completeTracing (t : Tracer) (u : String) :
    (t.completeTracing u).nowTracing = t.nowTracing := by
  unfold Tracer.completeTracing
  split <;> rfl

/-- `deactivate` clears the active flag. -/
theorem Tracer.active_deactivate (t : Tracer) : t.deactivate.active = false := by
  unfold Tracer.deactivate
  simp [Tracer.active_completeTracing]

/-- `deactivate` marks the currently traced function as fully traced. -/
theorem Tracer.deactivate_traced_now (t : Tracer) :
    t.deactivate.traced.contains t.nowTracing = true := by
  unfold Tracer.deactivate
  simpa using Tracer.contains_completeTracing_self { t with active := false } t.nowTracing

/-- `deactivate` keeps everything already traced. -/
theorem Tracer.deactivate_traced_mono (t : Tracer) (x : String)
    (h : t.traced.contains x = true) : t.deactivate.traced.contains x = true := by
  unfold Tracer.deactivate
  simpa using Tracer.contains_completeTracing_mono { t with active := false } t.nowTracing x h

/-- A `nop` instruction valid in every function body. -/
def nopInstr : Instr := { op := .nop }

/-- A `call` effect instruction naming one callee. -/
def callIns (f : String) : Instr := { op := .call, funcs := [f] }

/-- Function with a single `nop` body. -/
def funcNopBody (name : String) : Func := { name := name, instrs := [.instr nopInstr] }

/-- A `main` consisting of `n` calls to `f`. -/
def mainCalls (n : Nat) : Func :=
  { name := "main", instrs := List.replicate n (.instr (callIns "f")) }

/-- Initial state for tracing runs: `-tr` on, a given tracer, a given
function table. -/
def initTraceSt (t : Tracer) (fs : List Func) : St :=
  .mk [] {} {} t false false true fs 0 none none none 0

/-- Tracer of the final state of a run, if the run succeeds. -/
def runTracer (fuel : Nat) (f : Func) (s : St) : Option Tracer :=
  match evalFunc fuel f s with
  | .ok (_, s') => some s'.tracer
  | .error _ => none

/-- When a call returns while a trace is active (and tracing is enabled),
the tracer is deactivated and the callee marked fully traced — and
`deactivate` also marks the function whose trace was active, even when it
is not the callee. Concretely (last conjunct): with hot limit 1 and `g`
already fully traced, `main` calls `f` (which becomes hot and is being
traced) and `f` calls `g` then runs a `nop`; at `g`'s return the trace of
`f` is ended — `f`'s log stops at the `call g` instruction, its trailing
`nop` is never logged — and both `f` and `g` end up fully traced. -/
theorem call_return_deactivates_tracer (t : Tracer) (name : String)
    (hact : t.isActive = true) :
    (tracerAfterCall true t name).isActive = false ∧
    (tracerAfterCall true t name).traced.contains name = true ∧
    (tracerAfterCall true t name).traced.contains t.nowTracing = true ∧
    runTracer 40 { name := "main", instrs := [.instr (callIns "f")] }
        (initTraceSt { hotLimit := 1, traced := ["g"] }
          [{ name := "main", instrs := [.instr (callIns "f")] },
           { name := "f", instrs := [.instr (callIns "g"), .instr nopInstr] },
           { name := "g", instrs := [] }])
      = some { trace := [("f", [callIns "g"])], functionCalls := [("f", 1)],
               traced := ["g", "f"], hotLimit := 1, active := false, nowTracing := "" } := by
  refine ⟨?_, ?_, ?_, by rfl⟩
  · unfold tracerAfterCall Tracer.isActive at *
    simp [hact, Tracer.active_completeTracing, Tracer.active_deactivate]
  · unfold tracerAfterCall Tracer.isActive at *
    simp only [hact]
    simpa using Tracer.contains_completeTracing_self t.deactivate name
  · unfold tracerAfterCall Tracer.isActive at *
    simp only [hact]
    simpa using Tracer.contains_completeTracing_mono t.deactivate name t.nowTracing
      (Tracer.deactivate_traced_now t)

/-- Witness for `call_return_deactivates_tracer` at an active tracer whose
traced function is not the callee. -/
theorem call_return_deactivates_tracer_witness :
    ({ hotLimit := 5, active := true, nowTracing := "f" : Tracer }).isActive = true ∧
    (tracerAfterCall true { hotLimit := 5, active := true, nowTracing := "f" } "g").isActive
        = false ∧
    (tracerAfterCall true { hotLimit := 5, active := true, nowTracing := "f" }
        "g").traced.contains "g" = true ∧
    (tracerAfterCall true { hotLimit := 5, active := true, nowTracing := "f" }
        "g").traced.contains "f" = true := by
  have h := call_return_deactivates_tracer
    { hotLimit := 5, active := true, nowTracing := "f" } "g" rfl
  exact ⟨rfl, h.1, h.2.1, h.2.2.1⟩

/-- The speculation discipline of the evaluator: `speculate` snapshots
the state into `specparent` (making it non-null); `commit` requires a
snapshot (failing otherwise) and clears it; `abort` requires a snapshot
(failing otherwise) and pops back to the snapshot's own parent; reaching
the end of a function body with a snapshot pending fails; and a fresh
call frame starts with no snapshot. -/
theorem speculation_discipline :
    (∀ (f : Func) (i : Nat) (s : St),
      stepAction f i .speculate s = .ok (.cont (i + 1) (s.setSpecparent (some s))) ∧
      (s.setSpecparent (some s)).specparent = some s) ∧
    (∀ (f : Func) (i : Nat) (s : St), s.specparent = none →
      stepAction f i .commit s = .error (.err "commit in non-speculative state")) ∧
    (∀ (f : Func) (i : Nat) (s : St) (p : St), s.specparent = some p →
      stepAction f i .commit s = .ok (.cont (i + 1) (s.setSpecparent none)) ∧
      (s.setSpecparent none).specparent = none) ∧
    (∀ (f : Func) (i : Nat) (s : St) (l : String), s.specparent = none →
      stepAction f i (.abort l) s = .error (.err "abort in non-speculative state")) ∧
    (∀ (f : Func) (i : Nat) (s : St) (p : St) (l : String) (j : Nat),
      s.specparent = some p → findLabelIdx f l = some j →
      ∃ s', stepAction f i (.abort l) s = .ok (.cont j s') ∧
        s'.specparent = p.specparent) ∧
    (∀ (fuel : Nat) (f : Func) (i : Nat) (s : St),
      f.instrs.get? i = none → s.specparent.isSome = true →
      evalFuncLoop (fuel + 1) f i s = .error (.err "implicit return in speculative state")) ∧
    (∀ (s : St) (e : Env), (newCallState s e).specparent = none) := by
  refine ⟨?_, ?_, ?_, ?_, ?_, ?_, ?_⟩
  · intro f i s
    exact ⟨rfl, by simp⟩
  · intro f i s hs
    simp [stepAction, hs]
  · intro f i s p hs
    refine ⟨by simp [stepAction, hs], by simp⟩
  · intro f i s l hs
    simp [stepAction, hs]
  · intro f i s p l j hs hj
    refine ⟨(((s.setEnv p.env).setLastlabel p.lastlabel).setCurlabel p.curlabel).setSpecparent
      p.specparent, ?_, by simp⟩
    simp [stepAction, hs, gotoLabel, hj]
  · intro fuel f i s hi hsp
    rw [List.get?_eq_getElem?] at hi
    simp [evalFuncLoop, interp, evalFuncLoopBody, hi, hsp]
  · intro s e
    rfl

/-- Witness for `speculation_discipline` at concrete states: committing
with no snapshot fails, and after a concrete `speculate` the snapshot is
exactly the prior state. -/
theorem speculation_discipline_witness :
    baseSt.specparent = none ∧
    stepAction (mainCalls 0) 0 .commit baseSt
      = .error (.err "commit in non-speculative state") ∧
    stepAction (mainCalls 0) 0 .speculate baseSt
      = .ok (.cont 1 (baseSt.setSpecparent (some baseSt))) ∧
    (newCallState baseSt []).specparent = none := by
  refine ⟨rfl, ?_, ?_, ?_⟩
  · exact speculation_discipline.2.1 (mainCalls 0) 0 baseSt rfl
  · exact (speculation_discipline.1 (mainCalls 0) 0 baseSt).1
  · exact speculation_discipline.2.2.2.2.2.2 baseSt []

/-- A guard whose boolean argument is false yields an Abort action (with
`icount` already incremented by the instruction preamble), and handling
that action with a snapshot present restores `env`, `lastlabel`,
`curlabel` and the nested `specparent` exactly from the snapshot, keeps
`icount` at its current incremented value (not the snapshot's), does not
restore the shared heap, reference counter or tracer, and transfers
control to the abort label's position. -/
theorem guard_abort_restores (fuel : Nat) (instr : Instr) (s : St) (x l : String)
    (f : Func) (i j : Nat) (p : St)
    (hop : instr.op = .guard) (hargs : instr.args = [x])
    (hl : instr.labels.get? 0 = some l)
    (henv : envGet s.env x = some (.bool false))
    (htr : s.tracer.isActive = false)
    (hspec : s.specparent = some p)
    (hfind : findLabelIdx f l = some j) :
    evalInstr (fuel + 1) instr s = .ok (.abort l, s.setIcount (s.icount + 1)) ∧
    ∃ s', stepAction f i (.abort l) (s.setIcount (s.icount + 1)) = .ok (.cont j s') ∧
      s'.env = p.env ∧ s'.lastlabel = p.lastlabel ∧ s'.curlabel = p.curlabel ∧
      s'.specparent = p.specparent ∧
      s'.icount = s.icount + 1 ∧
      s'.heap = s.heap ∧ s'.gc = s.gc ∧ s'.tracer = s.tracer := by
  have e1 : (Op.guard != Op.const) = true := rfl
  have e2 : (Op.guard == Op.call || Op.guard == Op.ret) = false := rfl
  constructor
  · rw [List.get?_eq_getElem?] at hl
    simp only [evalInstr, interp]
    unfold evalInstrBody
    simp [hop, hargs, hl, henv, htr, e1, e2, getBool, getArgument, getVar, getLabel,
      typeCheck, argCounts]
    rfl
  · refine ⟨(((((s.setIcount (s.icount + 1)).setEnv p.env).setLastlabel
      p.lastlabel).setCurlabel p.curlabel).setSpecparent p.specparent), ?_, ?_, ?_, ?_, ?_,
      ?_, ?_, ?_, ?_⟩
    · simp [stepAction, hspec, gotoLabel, hfind]
    · simp
    · simp
    · simp
    · simp
    · simp
    · simp
    · simp
    · simp

/-- Witness for `guard_abort_restores` at a concrete guard, state and
snapshot. -/
theorem guard_abort_restores_witness :
    envGet [("c", Value.bool false)] "c" = some (.bool false) ∧
    findLabelIdx { name := "m", instrs := [.label "a"] } "a" = some 0 ∧
    evalInstr 1 { op := .guard, args := ["c"], labels := ["a"] }
        (St.mk [("c", Value.bool false)] {} {} { hotLimit := 5 } false false false [] 3
          none none (some baseSt) 0) =
      .ok (.abort "a",
        (St.mk [("c", Value.bool false)] {} {} { hotLimit := 5 } false false false [] 3
          none none (some baseSt) 0).setIcount
        ((St.mk [("c", Value.bool false)] {} {} { hotLimit := 5 } false false false [] 3
          none none (some baseSt) 0).icount + 1)) := by
  refine ⟨rfl, rfl, ?_⟩
  exact (guard_abort_restores 0 { op := .guard, args := ["c"], labels := ["a"] }
    (St.mk [("c", Value.bool false)] {} {} { hotLimit := 5 } false false false [] 3
      none none (some baseSt) 0) "c" "a" { name := "m", instrs := [.label "a"] } 0 0 baseSt
    rfl rfl rfl rfl rfl rfl rfl).1

/-- The integer ops `add`, `mul`, `sub` bind the destination to the
two's-complement 64-bit wraparound of the exact result; `div` does the
same for the (toward-zero) quotient when the divisor is nonzero, and a
zero divisor is a failure (the host throws on BigInt division by zero).
The final conjunct states that `asIntN64` really is two's-complement
wraparound: congruent modulo 2^64 and within the signed 64-bit range. -/
theorem int_ops_wrap (fuel : Nat) (s : St) (d x y : String) (a b : Int)
    (hx : envGet s.env x = some (.int a)) (hy : envGet s.env y = some (.int b))
    (htr : s.tracer.isActive = false) :
    evalInstr (fuel + 1) { op := .add, dest := some d, args := [x, y] } s =
      .ok (.next, (s.setIcount (s.icount + 1)).setEnv
        (envSet s.env d (.int (asIntN64 (a + b))))) ∧
    evalInstr (fuel + 1) { op := .mul, dest := some d, args := [x, y] } s =
      .ok (.next, (s.setIcount (s.icount + 1)).setEnv
        (envSet s.env d (.int (asIntN64 (a * b))))) ∧
    evalInstr (fuel + 1) { op := .sub, dest := some d, args := [x, y] } s =
      .ok (.next, (s.setIcount (s.icount + 1)).setEnv
        (envSet s.env d (.int (asIntN64 (a - b))))) ∧
    (b ≠ 0 → evalInstr (fuel + 1) { op := .div, dest := some d, args := [x, y] } s =
      .ok (.next, (s.setIcount (s.icount + 1)).setEnv
        (envSet s.env d (.int (asIntN64 (a.tdiv b)))))) ∧
    (b = 0 → evalInstr (fuel + 1) { op := .div, dest := some d, args := [x, y] } s =
      .error (.err "division by zero")) ∧
    (∀ z : Int, asIntN64 z % 2 ^ 64 = z % 2 ^ 64 ∧
      -(2 ^ 63) ≤ asIntN64 z ∧ asIntN64 z < 2 ^ 63) := by
  refine ⟨?_, ?_, ?_, ?_, ?_, ?_⟩
  · simp only [evalInstr, interp]
    unfold evalInstrBody
    simp [getDest, getInt, getArgument, getVar, hx, hy, htr, typeCheck, argCounts]
    rfl
  · simp only [evalInstr, interp]
    unfold evalInstrBody
    simp [getDest, getInt, getArgument, getVar, hx, hy, htr, typeCheck, argCounts]
    rfl
  · simp only [evalInstr, interp]
    unfold evalInstrBody
    simp [getDest, getInt, getArgument, getVar, hx, hy, htr, typeCheck, argCounts]
    rfl
  · intro hb
    simp only [evalInstr, interp]
    unfold evalInstrBody
    simp [getDest, getInt, getArgument, getVar, hx, hy, htr, typeCheck, argCounts, hb]
    simp only [bind, Except.bind]
    simp [hb]
    rfl
  · intro hb
    subst hb
    simp only [evalInstr, interp]
    unfold evalInstrBody
    simp [getDest, getInt, getArgument, getVar, hx, hy, htr, typeCheck, argCounts]
    rfl
  · intro z
    have h64 : (2 : Int) ^ 64 = 18446744073709551616 := by norm_num
    have h63 : (2 : Int) ^ 63 = 9223372036854775808 := by norm_num
    unfold asIntN64
    rw [h63, h64]
    refine ⟨?_, ?_, ?_⟩ <;> omega

/-- Witness for `int_ops_wrap`: adding 1 to the largest signed 64-bit
integer wraps around to the smallest. -/
theorem int_ops_wrap_witness :
    envGet [("x", Value.int 9223372036854775807), ("y", Value.int 1)] "x"
      = some (.int 9223372036854775807) ∧
    envGet [("x", Value.int 9223372036854775807), ("y", Value.int 1)] "y"
      = some (.int 1) ∧
    asIntN64 (9223372036854775807 + 1) = -9223372036854775808 ∧
    evalInstr 1 { op := .add, dest := some "d", args := ["x", "y"] }
        (St.mk [("x", Value.int 9223372036854775807), ("y", Value.int 1)] {} {}
          { hotLimit := 5 } false false false [] 0 none none none 0) =
      .ok (.next,
        ((St.mk [("x", Value.int 9223372036854775807), ("y", Value.int 1)] {} {}
            { hotLimit := 5 } false false false [] 0 none none none 0).setIcount
          ((St.mk [("x", Value.int 9223372036854775807), ("y", Value.int 1)] {} {}
            { hotLimit := 5 } false false false [] 0 none none none 0).icount + 1)).setEnv
          (envSet [("x", Value.int 9223372036854775807), ("y", Value.int 1)] "d"
            (.int (asIntN64 (9223372036854775807 + 1))))) := by
  refine ⟨rfl, rfl, by decide, ?_⟩
  exact (int_ops_wrap 0
    (St.mk [("x", Value.int 9223372036854775807), ("y", Value.int 1)] {} {}
      { hotLimit := 5 } false false false [] 0 none none none 0)
    "d" "x" "y" 9223372036854775807 1 rfl rfl rfl).1

/-- A `nmUpdate` is visible at its base. -/
theorem nmLookup_update_same (l : List (Nat × List (Option Value))) (b : Nat)
    (d : List (Option Value)) : nmLookup (nmUpdate l b d) b = some d := by
  induction l with
  | nil => simp [nmUpdate, nmLookup]
  | cons kv rest ih =>
      by_cases hp : kv.1 = b
      · simp [nmUpdate, nmLookup, hp]
      · simp [nmUpdate, nmLookup, hp, ih]

/-- After filtering a base out of the storage, lookups of it fail. -/
theorem nmLookup_filter_self (l : List (Nat × List (Option Value))) (b : Nat) :
    nmLookup (l.filter (fun kv => kv.1 != b)) b = none := by
  induction l with
  | nil => rfl
  | cons kv rest ih =>
      by_cases hp : kv.1 = b
      · simpa [List.filter_cons, hp] using ih
      · simpa [List.filter_cons, nmLookup, hp] using ih

/-- Allocation, pointer arithmetic and bounds: `alloc` of `n > 0` entries
yields the pointer `Key(base, 0)` for a fresh base holding `n`
uninitialized slots; `ptradd` by `k` keeps the base and moves the offset
to `k`; a write or read through the moved key succeeds exactly when
`0 ≤ k < n`; unknown bases always fail; and after freeing the
allocation, access through it fails. -/
theorem alloc_ptradd_bounds (h : Heap) (oid oid' : Nat) (n k : Int) (v : Value)
    (hn : 0 < n) :
    (h.alloc oid n = .ok
      ({ storage := nmUpdate h.storage h.count (List.replicate n.toNat none),
         count := h.count + 1 }, { oid := oid, base := h.count, offset := 0 })) ∧
    (Key.add { oid := oid, base := h.count, offset := 0 } oid' k).base = h.count ∧
    (Key.add { oid := oid, base := h.count, offset := 0 } oid' k).offset = k ∧
    (((Heap.mk (nmUpdate h.storage h.count (List.replicate n.toNat none)) (h.count + 1)).write
        { oid := oid', base := h.count, offset := k } v).isOk = true ↔ 0 ≤ k ∧ k < n) ∧
    (((Heap.mk (nmUpdate h.storage h.count (List.replicate n.toNat none)) (h.count + 1)).read
        { oid := oid', base := h.count, offset := k }).isOk = true ↔ 0 ≤ k ∧ k < n) ∧
    (∀ (h₂ : Heap) (k₂ : Key), h₂.getData k₂.base = none →
      (h₂.write k₂ v).isOk = false ∧ (h₂.read k₂).isOk = false) ∧
    (∀ h'', (Heap.mk (nmUpdate h.storage h.count (List.replicate n.toNat none))
          (h.count + 1)).free { oid := oid', base := h.count, offset := 0 } = .ok h'' →
      (h''.write { oid := oid', base := h.count, offset := k } v).isOk = false ∧
      (h''.read { oid := oid', base := h.count, offset := k }).isOk = false) := by
  have hne : ¬ n ≤ 0 := by omega
  have hl2 : (List.replicate n.toNat (none : Option Value)).length = n.toNat := by simp
  have hcast : ((n.toNat : Int)) = n := Int.toNat_of_nonneg (le_of_lt hn)
  refine ⟨by simp [Heap.alloc, hne], rfl, by simp [Key.add], ?_, ?_, ?_, ?_⟩
  · simp only [Heap.write, Heap.getData, nmLookup_update_same, hl2, hcast]
    by_cases hk0 : 0 ≤ k
    · by_cases hk1 : k < n
      · simp [hk0, hk1, Except.isOk, Except.toBool]
      · simp [hk0, hk1, Except.isOk, Except.toBool]
    · simp [hk0, Except.isOk, Except.toBool]
  · simp only [Heap.read, Heap.getData, nmLookup_update_same, hl2, hcast]
    by_cases hk0 : 0 ≤ k
    · by_cases hk1 : k < n
      · simp [hk0, hk1, Except.isOk, Except.toBool]
      · simp [hk0, hk1, Except.isOk, Except.toBool]
    · simp [hk0, Except.isOk, Except.toBool]
  · intro h₂ k₂ hdata
    constructor
    · simp [Heap.write, hdata, Except.isOk, Except.toBool]
    · simp [Heap.read, hdata, Except.isOk, Except.toBool]
  · intro h'' hfree
    have hget : ((Heap.mk (nmUpdate h.storage h.count (List.replicate n.toNat none))
        (h.count + 1)).getData h.count).isSome = true := by
      simp [Heap.getData, nmLookup_update_same]
    have hh : h'' = Heap.mk ((nmUpdate h.storage h.count
        (List.replicate n.toNat none)).filter (fun kv => kv.1 != h.count)) (h.count + 1) := by
      simp [Heap.free, Heap.getData, nmLookup_update_same, nmRemove] at hfree
      exact hfree.symm
    have hnone : h''.getData h.count = none := by
      rw [hh]
      simpa [Heap.getData, nmRemove] using
        nmLookup_filter_self (nmUpdate h.storage h.count (List.replicate n.toNat none)) h.count
    constructor
    · simp [Heap.write, hnone, Except.isOk, Except.toBool]
    · simp [Heap.read, hnone, Except.isOk, Except.toBool]

/-- Witness for `alloc_ptradd_bounds`: allocate 2 slots in the empty
heap; the in-range offset 1 is writable. -/
theorem alloc_ptradd_bounds_witness :
    (0 : Int) < 2 ∧
    ((Heap.mk (nmUpdate ([] : List (Nat × List (Option Value))) 0
        (List.replicate (2 : Int).toNat none)) (0 + 1)).write
       { oid := 1, base := 0, offset := 1 } (Value.int 42)).isOk = true := by
  refine ⟨by decide, ?_⟩
  exact (alloc_ptradd_bounds (Heap.mk [] 0) 0 1 2 1 (Value.int 42)
    (by decide)).2.2.2.1.mpr ⟨by decide, by decide⟩

/-- A successful heap write is read back verbatim at the same key. -/
theorem Heap.read_write (h h₁ : Heap) (k : Key) (v : Value)
    (hw : h.write k v = .ok h₁) : h₁.read k = .ok (some v) := by
  unfold Heap.write at hw
  cases hd : h.getData k.base with
  | none => rw [hd] at hw; exact absurd hw (by simp)
  | some data =>
      rw [hd] at hw
      by_cases hc : k.offset < (data.length : Int) ∧ 0 ≤ k.offset
      · have hcb : (decide (k.offset < (data.length : Int)) && decide (0 ≤ k.offset)) = true := by
          simp [hc.1, hc.2]
        have hlt : k.offset.toNat < data.length := by omega
        simp only [hcb, if_true] at hw
        simp at hw
        subst hw
        unfold Heap.read
        simp [Heap.getData, nmLookup_update_same, setSlot, hc.1, hc.2,
          List.getD_eq_getElem?_getD, List.getElem?_set_self', hlt]
      · have hcb : (decide (k.offset < (data.length : Int)) && decide (0 ≤ k.offset)) = false := by
          rcases not_and_or.mp hc with h' | h' <;> simp [h']
        simp only [hcb] at hw
        simp at hw

/-- A fresh binding is read back from the environment. -/
theorem envGet_envSet_self (e : Env) (x : String) (v : Value) :
    envGet (envSet e x v) x = some v := by
  induction e with
  | nil => simp [envSet, envGet]
  | cons kv rest ih =>
      by_cases hp : kv.1 = x
      · simp [envSet, envGet, hp]
      · simp [envSet, envGet, hp, ih]

/-- Store/load round trip: storing a type-matching value through a live
in-range pointer succeeds (binding the new heap), loading through the
same pointer afterwards binds the destination to exactly the stored
value, and a store whose value fails `checkType` against the pointee type
is an error. -/
theorem store_load_roundtrip (fuel : Nat) (s : St) (px vx d : String) (ptr : Pointer)
    (v : Value) (h₁ : Heap)
    (hp : envGet s.env px = some (.ptr ptr))
    (hv : envGet s.env vx = some v)
    (htc : typeCheck v ptr.type = true)
    (htr : s.tracer.isActive = false)
    (hw : s.heap.write ptr.loc v = .ok h₁) :
    evalInstr (fuel + 1) { op := .store, args := [px, vx] } s =
      .ok (.next, (s.setIcount (s.icount + 1)).setHeap h₁) ∧
    (∀ s₁ : St, s₁.env = s.env → s₁.heap = h₁ → s₁.tracer.isActive = false →
      evalInstr (fuel + 1) { op := .load, dest := some d, args := [px] } s₁ =
        .ok (.next, (s₁.setIcount (s₁.icount + 1)).setEnv (envSet s₁.env d v)) ∧
      envGet (envSet s₁.env d v) d = some v) ∧
    (∀ (s₂ : St) (v₂ : Value), envGet s₂.env px = some (.ptr ptr) →
      envGet s₂.env vx = some v₂ → typeCheck v₂ ptr.type = false →
      s₂.tracer.isActive = false →
      evalInstr (fuel + 1) { op := .store, args := [px, vx] } s₂ =
        .error (.err "argument has wrong type")) := by
  refine ⟨?_, ?_, ?_⟩
  · simp only [evalInstr, interp]
    unfold evalInstrBody
    simp [getPtr, getArgument, getVar, hp, hv, htc, htr, argCounts, hw]
    simp only [bind, Except.bind]
    simp [htc, hw]
    rfl
  · intro s₁ he hh ht1
    have hr : s₁.heap.read ptr.loc = .ok (some v) := by
      rw [hh]
      exact Heap.read_write s.heap h₁ ptr.loc v hw
    refine ⟨?_, envGet_envSet_self s₁.env d v⟩
    simp only [evalInstr, interp]
    unfold evalInstrBody
    simp [getDest, getPtr, getArgument, getVar, he, hp, ht1, argCounts, hr]
    simp only [bind, Except.bind]
    rw [hr]
    rfl
  · intro s₂ v₂ hp₂ hv₂ htc₂ ht₂
    simp only [evalInstr, interp]
    unfold evalInstrBody
    simp [getPtr, getArgument, getVar, hp₂, hv₂, htc₂, ht₂, argCounts]
    simp only [bind, Except.bind]
    simp [htc₂]

/-- Witness for `store_load_roundtrip`: storing 42 through a live pointer
at offset 0. -/
theorem store_load_roundtrip_witness :
    envGet [("p", Value.ptr ⟨⟨0, 0, 0⟩, .int⟩), ("x", Value.int 42)] "p"
      = some (.ptr ⟨⟨0, 0, 0⟩, .int⟩) ∧
    typeCheck (Value.int 42) Ty.int = true ∧
    (Heap.mk [(0, [none])] 1).write ⟨0, 0, 0⟩ (Value.int 42)
      = .ok (Heap.mk [(0, [some (Value.int 42)])] 1) ∧
    evalInstr 1 { op := .store, args := ["p", "x"] }
        (St.mk [("p", Value.ptr ⟨⟨0, 0, 0⟩, .int⟩), ("x", Value.int 42)]
          (Heap.mk [(0, [none])] 1) {} { hotLimit := 5 } false false false [] 0
          none none none 1) =
      .ok (.next,
        ((St.mk [("p", Value.ptr ⟨⟨0, 0, 0⟩, .int⟩), ("x", Value.int 42)]
            (Heap.mk [(0, [none])] 1) {} { hotLimit := 5 } false false false [] 0
            none none none 1).setIcount
          ((St.mk [("p", Value.ptr ⟨⟨0, 0, 0⟩, .int⟩), ("x", Value.int 42)]
            (Heap.mk [(0, [none])] 1) {} { hotLimit := 5 } false false false [] 0
            none none none 1).icount + 1)).setHeap
          (Heap.mk [(0, [some (Value.int 42)])] 1)) := by
  refine ⟨rfl, rfl, rfl, ?_⟩
  exact (store_load_roundtrip 0
    (St.mk [("p", Value.ptr ⟨⟨0, 0, 0⟩, .int⟩), ("x", Value.int 42)]
      (Heap.mk [(0, [none])] 1) {} { hotLimit := 5 } false false false [] 0
      none none none 1)
    "p" "x" "d" ⟨⟨0, 0, 0⟩, .int⟩ (Value.int 42)
    (Heap.mk [(0, [some (Value.int 42)])] 1) rfl rfl rfl rfl rfl).1

/-- An `smUpdate` is visible at its key. -/
theorem smLookup_update_same {β : Type} (l : List (String × β)) (x : String) (v : β) :
    smLookup (smUpdate l x v) x = some v := by
  induction l with
  | nil => simp [smUpdate, smLookup]
  | cons kv rest ih =>
      by_cases hp : kv.1 = x
      · simp [smUpdate, smLookup, hp]
      · simp [smUpdate, smLookup, hp, ih]

/-- `addFunctionCall` bumps the call count to old + 1 (1 if unseen). -/
theorem Tracer.callCount_add (t : Tracer) (name : String) :
    (t.addFunctionCall name).callCount name = some ((t.callCount name).getD 0 + 1) := by
  unfold Tracer.addFunctionCall Tracer.callCount
  cases hc : smLookup t.functionCalls name with
  | none => simp [hc, smLookup_update_same]
  | some c => simp [hc, smLookup_update_same]

/-- The `f` of the nested scenario: its body only calls `g`. -/
def funcCallsG : Func := { name := "f", instrs := [.instr (callIns "g")] }

/-- Tracer counting and activation as the code performs it before a call
to a not-yet-fully-traced function: the call count is bumped by one, and
tracing for the callee is activated exactly when the bumped count reaches
or exceeds the hot limit — with no check that a trace is already active.
Concretely with H = 5 (last two conjuncts): after four calls to `f` there
is no trace log at all, and after five calls the log keyed by `f` is
non-empty and `f` is fully traced — the fifth call is the one executed
while the trace records. -/
theorem tracer_hot_activation (t : Tracer) (name : String) :
    (t.addFunctionCall name).callCount name = some ((t.callCount name).getD 0 + 1) ∧
    (t.isTraced name = false → t.hotLimit ≤ (t.callCount name).getD 0 + 1 →
      tracerBeforeCall true t name = (t.addFunctionCall name).activate name) ∧
    (t.isTraced name = false → (t.callCount name).getD 0 + 1 < t.hotLimit →
      tracerBeforeCall true t name = t.addFunctionCall name) ∧
    (runTracer 60 (mainCalls 4) (initTraceSt { hotLimit := 5 } [mainCalls 4, funcNopBody "f"])
      = some { trace := [], functionCalls := [("f", 4)], traced := [], hotLimit := 5,
               active := false, nowTracing := "" }) ∧
    (runTracer 60 (mainCalls 5) (initTraceSt { hotLimit := 5 } [mainCalls 5, funcNopBody "f"])
      = some { trace := [("f", [nopInstr])], functionCalls := [("f", 5)], traced := ["f"],
               hotLimit := 5, active := false, nowTracing := "" }) := by
  have hcc := Tracer.callCount_add t name
  refine ⟨hcc, ?_, ?_, by rfl, by rfl⟩
  · intro h1 h2
    unfold tracerBeforeCall
    simp only [h1, Bool.not_false, Bool.and_true, if_true]
    have hhot : (t.addFunctionCall name).isHot name = true := by
      unfold Tracer.isHot
      rw [hcc]
      simpa [Tracer.addFunctionCall] using h2
    simp [hhot]
  · intro h1 h2
    unfold tracerBeforeCall
    simp only [h1, Bool.not_false, Bool.and_true, if_true]
    have hhot : (t.addFunctionCall name).isHot name = false := by
      unfold Tracer.isHot
      rw [hcc]
      simp [Tracer.addFunctionCall]
      omega
    simp [hhot]

/-- Witness for `tracer_hot_activation` at a concrete tracer one call
short of the limit: the next call activates tracing. -/
theorem tracer_hot_activation_witness :
    ({ functionCalls := [("f", 4)], hotLimit := 5 : Tracer }).isTraced "f" = false ∧
    ({ functionCalls := [("f", 4)], hotLimit := 5 : Tracer }).hotLimit ≤
      (({ functionCalls := [("f", 4)], hotLimit := 5 : Tracer }).callCount "f").getD 0 + 1 ∧
    tracerBeforeCall true { functionCalls := [("f", 4)], hotLimit := 5 } "f"
      = (({ functionCalls := [("f", 4)], hotLimit := 5 : Tracer }).addFunctionCall
          "f").activate "f" := by
  refine ⟨rfl, by decide, ?_⟩
  exact (tracer_hot_activation { functionCalls := [("f", 4)], hotLimit := 5 } "f").2.1
    rfl (by decide)

/-- The sixth call is not the one traced: with H = 5, five calls to `f`
already produce the complete non-empty trace log keyed by `f` and mark
`f` fully traced, and a sixth call leaves the tracer exactly unchanged
(it is executed with no active trace). Moreover (last conjunct),
activation does not require that no trace is active: when `g` becomes hot
during the recording of `f`'s trace, the code activates `g`'s trace over
the active one — `f`'s log is cut at the `call g` instruction and `f` is
never marked fully traced despite its count of 5. -/
theorem sixth_call_traced_counterexample :
    runTracer 60 (mainCalls 5) (initTraceSt { hotLimit := 5 } [mainCalls 5, funcNopBody "f"])
      = some { trace := [("f", [nopInstr])], functionCalls := [("f", 5)], traced := ["f"],
               hotLimit := 5, active := false, nowTracing := "" } ∧
    runTracer 70 (mainCalls 6) (initTraceSt { hotLimit := 5 } [mainCalls 6, funcNopBody "f"])
      = some { trace := [("f", [nopInstr])], functionCalls := [("f", 5)], traced := ["f"],
               hotLimit := 5, active := false, nowTracing := "" } ∧
    runTracer 80 (mainCalls 5)
        (initTraceSt { hotLimit := 5 } [mainCalls 5, funcCallsG, funcNopBody "g"])
      = some { trace := [("f", [callIns "g"]), ("g", [nopInstr])],
               functionCalls := [("f", 5), ("g", 5)], traced := ["g"], hotLimit := 5,
               active := false, nowTracing := "" } := by
  refine ⟨rfl, rfl, rfl⟩
